import Mathlib

/-!
Verification of the `wotr-ladder-update` repository: a shallow embedding of the
rating-and-reconciliation engine (`src/utils.ts`, `src/objects.ts`, `src/sheets.ts`,
`src/update.ts`, `src/types/wotrTypes.ts`, `src/types/cardGameTypes.ts`) together
with theorems settling the frozen claims C1..C10.

Modelling conventions:
- JavaScript numbers are modelled as `ℚ` (all arithmetic performed by the program —
  integer addition/subtraction and halving/averaging — is exact on doubles in the
  program's operating range, so `ℚ` is a faithful model of it).
- JavaScript objects held in arrays/maps are modelled as a heap: a ladder owns a
  `store : List entry` and the arrays/map hold indices into the store, which models
  the sharing of one mutable object between `originalEntries`, `entries` and
  `entryMap` in the source.
- `Array.prototype.sort` (stable per ECMA-262) with the comparator
  `(a, b) => b.avgRating() - a.avgRating()` is modelled by a stable insertion sort
  with respect to the total preorder `avgRating b ≤ avgRating a`.
- `String.prototype.trim` / `String.prototype.toLowerCase` are modelled by
  character-list functions `jsTrim` / `jsToLower`.
- Code that throws is modelled with `Option`/`Except`.
-/

set_option maxHeartbeats 2000000

namespace WotrLadderUpdate

/-- An untyped spreadsheet value, as handed to the row validators
(`unknown` in the TypeScript source). Google's API produces strings, numbers,
`Date` objects and arrays of them; anything else is collapsed into `other`. -/
inductive CellValue where
  | str (s : String)
  | num (q : ℚ)
  | date
  | arr (cells : List CellValue)
  | other

/-- Read a string cell (the blind `as string` cast of the source: non-strings give `""`). -/
def cellStr : CellValue → String
  | .str s => s
  | _ => ""

/-- Model of `String.prototype.toLowerCase` (character-wise lowering). -/
def jsToLower (s : String) : String :=
  String.mk (s.data.map Char.toLower)

/-- Model of `String.prototype.trim`: drop leading and trailing whitespace. -/
def jsTrim (s : String) : String :=
  String.mk (((s.data.dropWhile Char.isWhitespace).reverse.dropWhile Char.isWhitespace).reverse)

/-- `SCORE_BUCKETS` from `src/utils.ts`: right-inclusive partition bounds for the
rating-difference lookup.  The last entry is `Number.MAX_SAFE_INTEGER`. -/
def SCORE_BUCKETS : List ℚ :=
  [10, 33, 56, 79, 102, 126, 151, 178, 207, 236, 270, 308, 352, 409, 499, 9007199254740991]

/-- `WINNER_HIGHER` from `src/utils.ts`: adjustments when the winner was rated
at least as high as the loser. -/
def WINNER_HIGHER : List ℚ :=
  [16, 15, 14, 13, 12, 11, 10, 9, 8, 7, 6, 5, 4, 3, 2, 1]

/-- `WINNER_LOWER` from `src/utils.ts`: adjustments when the winner was rated
lower than the loser. -/
def WINNER_LOWER : List ℚ :=
  [16, 17, 18, 19, 20, 21, 22, 23, 24, 25, 26, 27, 28, 29, 30, 31]

/-- `getPartitionedValue` from `src/utils.ts`.  Scans the partition bounds left to
right and returns the value of the first partition whose (inclusive) right bound is
`≥ key`.  The two `throw` sites (length mismatch, key beyond every bound) are
modelled as `none`. -/
def getPartitionedValue (key : ℚ) (partitions : List ℚ) (values : List ℚ) : Option ℚ :=
  if partitions.length ≠ values.length then none
  else ((partitions.zip values).find? (fun pv => decide (key ≤ pv.1))).map Prod.snd

/-- `computeEloDiff` from `src/utils.ts`. -/
def computeEloDiff (winnerRating loserRating : ℚ) : Option ℚ :=
  let scoreAdjustments := if winnerRating < loserRating then WINNER_LOWER else WINNER_HIGHER
  let scoreDiff := |winnerRating - loserRating|
  getPartitionedValue scoreDiff SCORE_BUCKETS scoreAdjustments

/-- The reference definition of claim C1, written from the claim's own words:
`diff = |a − b|`; the underdog table `[16..31]` when `a < b`, otherwise the favorite
table `[16..1]`; return the table entry at the index of the first bucket bound in
`[10,33,…,499,+∞]` that is `≥ diff` (the 16th bound is `+∞`, so it accepts every
diff). -/
def computeEloDiffSpec (a b : ℚ) : ℚ :=
  let diff := |a - b|
  let table : List ℚ :=
    if a < b then [16, 17, 18, 19, 20, 21, 22, 23, 24, 25, 26, 27, 28, 29, 30, 31]
    else [16, 15, 14, 13, 12, 11, 10, 9, 8, 7, 6, 5, 4, 3, 2, 1]
  let finiteBounds : List ℚ := [10, 33, 56, 79, 102, 126, 151, 178, 207, 236, 270, 308, 352, 409, 499]
  match finiteBounds.findIdx? (fun p => decide (diff ≤ p)) with
  | some i => table.getD i 0
  | none => table.getD 15 0

theorem find_zip_eq_findIdx (d : ℚ) :
    ∀ (ps vs : List ℚ), ps.length = vs.length →
      ((ps.zip vs).find? (fun pv => decide (d ≤ pv.1))).map Prod.snd =
        (ps.findIdx? (fun p => decide (d ≤ p))).bind (fun i => vs[i]?) := by
  intro ps
  induction ps with
  | nil => intro vs _; simp
  | cons a ps ih =>
    intro vs hlen
    cases vs with
    | nil => simp at hlen
    | cons b vs =>
      have hlen' : ps.length = vs.length := by simpa using hlen
      by_cases hp : d ≤ a
      · simp [List.zip_cons_cons, List.find?_cons, List.findIdx?_cons, hp]
      · rw [List.zip_cons_cons, List.find?_cons_of_neg _ (by simp [hp]), List.findIdx?_cons,
          if_neg (by simp [hp]), List.findIdx?_succ, ih vs hlen']
        cases h : ps.findIdx? (fun p => decide (d ≤ p)) <;> simp [h]

theorem getPartitionedValue_sel (d : ℚ) (hd : d ≤ 9007199254740991) (t : List ℚ)
    (ht : t.length = 16) :
    getPartitionedValue d SCORE_BUCKETS t =
      some (match ([10, 33, 56, 79, 102, 126, 151, 178, 207, 236, 270, 308, 352, 409,
          499] : List ℚ).findIdx? (fun p => decide (d ≤ p)) with
        | some i => t.getD i 0
        | none => t.getD 15 0) := by
  have hlen : SCORE_BUCKETS.length = t.length := by rw [ht]; rfl
  have hsplit : SCORE_BUCKETS =
      ([10, 33, 56, 79, 102, 126, 151, 178, 207, 236, 270, 308, 352, 409, 499] : List ℚ) ++
        [(9007199254740991 : ℚ)] := by rfl
  rw [getPartitionedValue, if_neg (by rw [hlen]; simp),
    find_zip_eq_findIdx d _ _ hlen, hsplit, List.findIdx?_append]
  cases h : ([10, 33, 56, 79, 102, 126, 151, 178, 207, 236, 270, 308, 352, 409,
      499] : List ℚ).findIdx? (fun p => decide (d ≤ p)) with
  | some i =>
    have hi : i < 15 := by
      have := (List.findIdx?_eq_some_iff_findIdx_eq.mp h).1
      simpa using this
    have hget : t[i]? = some (t.getD i 0) := by
      rw [List.getD_eq_getElem?_getD, List.getElem?_eq_getElem (by omega)]
      simp
    exact hget
  | none =>
    have h15 : List.findIdx? (fun p => decide (d ≤ p)) [(9007199254740991 : ℚ)] = some 0 := by
      rw [List.findIdx?_cons, if_pos (by simp [hd])]
    have hget : t[15]? = some (t.getD 15 0) := by
      rw [List.getD_eq_getElem?_getD, List.getElem?_eq_getElem (by omega)]
      simp
    rw [h15]
    exact hget

/-- Claim C1 (corrected): for all ratings whose absolute difference is at most
`Number.MAX_SAFE_INTEGER` (the final bucket bound in the code, where the claim's
reference definition has `+∞`), `computeEloDiff` agrees with the reference
definition. -/
theorem C1_computeEloDiff_matches_reference_below_max (a b : ℚ)
    (h : |a - b| ≤ 9007199254740991) :
    computeEloDiff a b = some (computeEloDiffSpec a b) := by
  by_cases hab : a < b
  · rw [computeEloDiff, computeEloDiffSpec]
    simp only [hab, if_true]
    exact getPartitionedValue_sel _ h _ (by rfl)
  · rw [computeEloDiff, computeEloDiffSpec]
    simp only [hab, if_false]
    exact getPartitionedValue_sel _ h _ (by rfl)

/-- Witness for C1: at ratings 520 (winner) and 480 (loser) the hypothesis holds and
both the code and the reference produce the adjustment 14 (diff 40 falls in the
third bucket `(33,56]` of the favorite table). -/
theorem C1_witness :
    |(520 : ℚ) - 480| ≤ 9007199254740991 ∧
      computeEloDiff 520 480 = some (computeEloDiffSpec 520 480) ∧
      computeEloDiff 520 480 = some 14 := by
  refine ⟨by with_unfolding_all rfl,
    C1_computeEloDiff_matches_reference_below_max 520 480 (by with_unfolding_all rfl),
    by with_unfolding_all rfl⟩

/-- Counterexample for C1 as frozen: at winner rating 0 and loser rating
2^53 = 9007199254740992 the difference exceeds `Number.MAX_SAFE_INTEGER`, the code
throws (`none`) while the claim's reference definition returns the last underdog
entry 31 — so `computeEloDiff` does not equal the reference definition there. -/
theorem C1_counterexample :
    computeEloDiff 0 9007199254740992 ≠ some (computeEloDiffSpec 0 9007199254740992) ∧
      computeEloDiff 0 9007199254740992 = none ∧
      computeEloDiffSpec 0 9007199254740992 = 31 := by
  refine ⟨?_, by with_unfolding_all rfl, by with_unfolding_all rfl⟩
  have h1 : computeEloDiff 0 9007199254740992 = none := by with_unfolding_all rfl
  have h2 : computeEloDiffSpec 0 9007199254740992 = 31 := by with_unfolding_all rfl
  rw [h1, h2]
  simp

/-- JS `String.prototype.includes` on character lists: `pat` occurs contiguously in `s`. -/
def strIncludes (s pat : String) : Bool :=
  (List.range (s.data.length + 1)).any (fun i => pat.data.isPrefixOf (s.data.drop i))

/-- JS `String.prototype.startsWith` on character lists. -/
def jsStartsWith (s pat : String) : Bool :=
  pat.data.isPrefixOf s.data

/-- The `WotrSide` union type (`'Shadow' | 'Free'`) from `src/types/wotrTypes.ts`. -/
inductive WotrSide where
  | shadow
  | free
deriving DecidableEq

/-- The `WotrVictory` union type from `src/types/wotrTypes.ts` (the `VICTORY` literal list). -/
inductive WotrVictory where
  | freePeopleRing
  | freePeopleMilitary
  | concededFPWon
  | shadowForcesCorruption
  | shadowForcesMilitary
  | concededSPWon
deriving DecidableEq

/-- The string literal carried by each `WotrVictory` variant. -/
def victoryStr : WotrVictory → String
  | .freePeopleRing => "Free People Ring"
  | .freePeopleMilitary => "Free People Military"
  | .concededFPWon => "Conceded FP won"
  | .shadowForcesCorruption => "Shadow Forces Corruption"
  | .shadowForcesMilitary => "Shadow Forces Military"
  | .concededSPWon => "Conceded SP won"

/-- The `WotrCompetitive` union type from `src/types/wotrTypes.ts` (the `COMPETITIVE` literal list). -/
inductive WotrCompetitive where
  | friendly
  | ladder
  | ladderAndTournament
  | ladderAndLeagueGeneral
  | ladderAndLeagueLome
  | ladderAndLeagueTTS
  | ladderAndLeagueWome
  | ladderAndLeagueSuper
  | ladderButNoStats
deriving DecidableEq

/-- The string literal carried by each `WotrCompetitive` variant. -/
def competitiveStr : WotrCompetitive → String
  | .friendly => "Friendly"
  | .ladder => "Ladder"
  | .ladderAndTournament => "Ladder and tournament"
  | .ladderAndLeagueGeneral => "Ladder and league (general)"
  | .ladderAndLeagueLome => "Ladder and league (lome)"
  | .ladderAndLeagueTTS => "Ladder and league (TTS)"
  | .ladderAndLeagueWome => "Ladder and league (wome)"
  | .ladderAndLeagueSuper => "Ladder and league (super)"
  | .ladderButNoStats => "Ladder but I cannot remember the stats"

/-- The `WotrReport` class from `src/objects.ts`: the raw validated row plus the fields the
constructor extracts from it (`winner = row[2]`, `loser = row[3]`, `victory = row[5]`,
`competitive = row[6]`) and the mutable ladder-manager tuple (field `annotation` in the
source, initialized to the all-zero 8-tuple and overwritten when the report is processed). -/
structure WotrReport where
  row : List CellValue
  winner : String
  loser : String
  victory : WotrVictory
  competitive : WotrCompetitive
  annot : List ℚ := [0, 0, 0, 0, 0, 0, 0, 0]

/-- `WotrReport.isLadderGame` from `src/objects.ts`: the competitive classification starts
with `'Ladder'`. -/
def WotrReport.isLadderGame (r : WotrReport) : Bool :=
  jsStartsWith (competitiveStr r.competitive) "Ladder"

/-- `WotrReport.hasStats` from `src/objects.ts`: the classification is not the explicit
no-stats variant. -/
def WotrReport.hasStats (r : WotrReport) : Bool :=
  competitiveStr r.competitive != "Ladder but I cannot remember the stats"

/-- `WotrReport.winningSide` from `src/objects.ts`: Shadow when the victory string contains
`'Shadow'` or `'SP'`, otherwise Free. -/
def WotrReport.winningSide (r : WotrReport) : WotrSide :=
  if strIncludes (victoryStr r.victory) "Shadow" || strIncludes (victoryStr r.victory) "SP" then
    .shadow
  else .free

/-- `WotrReport.losingSide` from `src/objects.ts`. -/
def WotrReport.losingSide (r : WotrReport) : WotrSide :=
  if r.winningSide = .shadow then .free else .shadow

/-- The `WotrLadderRow` 7-tuple from `src/types/wotrTypes.ts`:
`[rank, flag, name, rating, shadowRating, freeRating, gamesPlayed]`.  The `flag` cell is a
`CellImage` the script never reads, modelled as `Unit`. -/
structure WotrLadderRow where
  rank : ℚ
  flag : Unit := ()
  name : String
  rating : ℚ
  shadowRating : ℚ
  freeRating : ℚ
  gamesPlayed : ℚ

/-- The `WotrLadderEntry` class from `src/objects.ts` (fields copied from the row by the
constructor: `name = row[2]`, `shadowRating = row[4]`, `freeRating = row[5]`,
`gamesPlayed = row[6]`). -/
structure WotrLadderEntry where
  name : String
  shadowRating : ℚ
  freeRating : ℚ
  gamesPlayed : ℚ

/-- The `WotrLadderEntry` constructor from `src/objects.ts`. -/
def WotrLadderEntry.ofRow (row : WotrLadderRow) : WotrLadderEntry :=
  { name := row.name
    shadowRating := row.shadowRating
    freeRating := row.freeRating
    gamesPlayed := row.gamesPlayed }

/-- `WotrLadderEntry.avgRating` from `src/objects.ts`. -/
def WotrLadderEntry.avgRating (e : WotrLadderEntry) : ℚ :=
  (e.shadowRating + e.freeRating) / 2

/-- `WotrLadderEntry.getRating` from `src/objects.ts`. -/
def WotrLadderEntry.getRating (e : WotrLadderEntry) : WotrSide → ℚ
  | .shadow => e.shadowRating
  | .free => e.freeRating

/-- `WotrLadderEntry.setRating` from `src/objects.ts`. -/
def WotrLadderEntry.setRating (e : WotrLadderEntry) (side : WotrSide) (value : ℚ) :
    WotrLadderEntry :=
  match side with
  | .shadow => { e with shadowRating := value }
  | .free => { e with freeRating := value }

/-- Stable insertion used to model `Array.prototype.sort`: an element is inserted after
every element it does not strictly precede, so elements comparing equal keep their
original relative order (ECMA-262 requires a stable sort). -/
def jsInsert {α : Type} (le : α → α → Bool) (a : α) : List α → List α
  | [] => [a]
  | b :: l => if le b a then b :: jsInsert le a l else a :: b :: l

/-- Stable sort modelling `Array.prototype.sort` under the total preorder `le`. -/
def jsSortBy {α : Type} (le : α → α → Bool) : List α → List α
  | [] => []
  | a :: l => jsInsert le a (jsSortBy le l)

theorem jsInsert_perm {α : Type} (le : α → α → Bool) (a : α) :
    ∀ l : List α, (jsInsert le a l).Perm (a :: l) := by
  intro l
  induction l with
  | nil => simp [jsInsert]
  | cons b l ih =>
    rw [jsInsert]
    by_cases h : le b a
    · rw [if_pos h]
      exact ((ih.cons b).trans (List.Perm.swap a b l))
    · rw [if_neg h]

theorem jsSortBy_perm {α : Type} (le : α → α → Bool) :
    ∀ l : List α, (jsSortBy le l).Perm l := by
  intro l
  induction l with
  | nil => simp [jsSortBy]
  | cons a l ih =>
    rw [jsSortBy]
    exact (jsInsert_perm le a (jsSortBy le l)).trans (ih.cons a)

/-- Model of an empty JS `Map` keyed by strings and holding store indices. -/
def emptyMap : String → Option Nat := fun _ => none

/-- Model of JS `Map.prototype.set`: later bindings shadow earlier ones. -/
def mapSet (m : String → Option Nat) (k : String) (v : Nat) : String → Option Nat :=
  fun q => if q = k then some v else m q

/-- The capabilities of the abstract `LadderEntry` class from `src/objects.ts`
(`name`, `avgRating`) plus the subclass `getDefaultEntry` factory, which each concrete
ladder supplies. -/
class LadderEntryOps (T : Type) where
  entryName : T → String
  entryAvgRating : T → ℚ
  defaultEntry : String → T

/-- The abstract `Ladder` class from `src/objects.ts`.  Entry objects live in `store`
(the heap); `originalEntries`, `entries` and `entryMap` hold indices into it, which models
the sharing of each mutable entry object among the three collections. -/
structure Ladder (T : Type) where
  store : List T
  originalEntries : List Nat
  entries : List Nat
  entryMap : String → Option Nat

/-- `Ladder.normalize` from `src/objects.ts`: lower-case only (no trim). -/
def normalizeName (name : String) : String :=
  jsToLower name

/-- Dereference an entry index in the ladder's store. -/
def Ladder.entryAt {T : Type} [LadderEntryOps T] (L : Ladder T) (i : Nat) : T :=
  L.store.getD i (LadderEntryOps.defaultEntry "")

/-- The comparator-driven re-sort `this.entries.sort((a, b) => b.avgRating() - a.avgRating())`
from `src/objects.ts`: stable sort of the index list by descending average rating. -/
def sortEntries {T : Type} [LadderEntryOps T] (store : List T) (idxs : List Nat) : List Nat :=
  jsSortBy
    (fun i j =>
      decide (LadderEntryOps.entryAvgRating (store.getD j (LadderEntryOps.defaultEntry "")) ≤
        LadderEntryOps.entryAvgRating (store.getD i (LadderEntryOps.defaultEntry ""))))
    idxs

/-- The `Ladder` constructor from `src/objects.ts`: `originalEntries` keeps every row,
`entries` is cut at the first `'NOT ACTIVE PLAYERS'` row when one exists, and `entryMap`
is built over **all** entries (the constructor parameter), keyed by normalized name with
later duplicates shadowing earlier ones. -/
def Ladder.ofEntries {T : Type} [LadderEntryOps T] (es : List T) : Ladder T :=
  { store := es
    originalEntries := List.range es.length
    entries :=
      match (es.map LadderEntryOps.entryName).findIdx?
          (fun n => n == "NOT ACTIVE PLAYERS") with
      | none => List.range es.length
      | some i => List.range i
    entryMap :=
      es.enum.foldl (fun m p => mapSet m (normalizeName (LadderEntryOps.entryName p.2)) p.1)
        emptyMap }

/-- `Ladder.getEntry` from `src/objects.ts`: normalize, then look up in the map.  Returns
the index of the entry object (`undefined` is `none`). -/
def Ladder.getEntry {T : Type} (L : Ladder T) (name : String) : Option Nat :=
  L.entryMap (normalizeName name)

/-- `Ladder.getRank` from `src/objects.ts`: 1-based position of the first entry of
`entries` whose normalized name matches; 0 when there is none (`findIndex` returns −1). -/
def Ladder.getRank {T : Type} [LadderEntryOps T] (L : Ladder T) (name : String) : Nat :=
  match L.entries.findIdx?
      (fun i => normalizeName (LadderEntryOps.entryName (L.entryAt i)) ==
        normalizeName name) with
  | some rank => rank + 1
  | none => 0

/-- `Ladder.addPlayer` from `src/objects.ts`: allocate the default entry, push its index
onto both `entries` and `originalEntries`, bind it in the map, then re-sort `entries`.
Returns the new entry's index (the source returns the entry object). -/
def Ladder.addPlayer {T : Type} [LadderEntryOps T] (L : Ladder T) (name : String) :
    Nat × Ladder T :=
  let entry := LadderEntryOps.defaultEntry name
  let n := L.store.length
  let store := L.store ++ [entry]
  (n,
    { store := store
      originalEntries := L.originalEntries ++ [n]
      entries := sortEntries store (L.entries ++ [n])
      entryMap := mapSet L.entryMap (normalizeName name) n })

/-- The resolution step `this.getEntry(name) ?? this.addPlayer(name)` used by
`processReport`. -/
def Ladder.resolveEntry {T : Type} [LadderEntryOps T] (L : Ladder T) (name : String) :
    Nat × Ladder T :=
  match L.getEntry name with
  | some i => (i, L)
  | none => L.addPlayer name

/-- `WotrLadder.getDefaultEntry` from `src/objects.ts`:
`new WotrLadderEntry([0, '', name, 500, 500, 500, 0])`. -/
def wotrGetDefaultEntry (name : String) : WotrLadderEntry :=
  WotrLadderEntry.ofRow
    { rank := 0, name := name, rating := 500, shadowRating := 500, freeRating := 500,
      gamesPlayed := 0 }

instance : LadderEntryOps WotrLadderEntry where
  entryName e := e.name
  entryAvgRating := WotrLadderEntry.avgRating
  defaultEntry := wotrGetDefaultEntry

/-- The `WotrLadder` class from `src/objects.ts`. -/
abbrev WotrLadder : Type := Ladder WotrLadderEntry

/-- `WotrLadder.processReport` from `src/objects.ts`, step for step: resolve winner then
loser (auto-adding missing players), snapshot pre-game stats, compute the adjustment,
apply it to the winner's winning-side rating and the loser's losing-side rating, bump both
games-played counters, re-sort `entries`, read back the post-game ratings and return the
8-entry ladder-manager tuple (written onto the report's `annotation` field by the model of
the batch).  A `computeEloDiff` throw propagates as `none`. -/
def WotrLadder.processReport (L : WotrLadder) (report : WotrReport) :
    Option (WotrLadder × List ℚ) :=
  let resW := Ladder.resolveEntry L report.winner
  let wi := resW.1
  let resL := Ladder.resolveEntry resW.2 report.loser
  let li := resL.1
  let L2 := resL.2
  let winningSide := report.winningSide
  let losingSide := report.losingSide
  let oldWinnerGamesPlayed := (L2.entryAt wi).gamesPlayed
  let oldWinnerRank := L2.getRank (L2.entryAt wi).name
  let oldWinnerRating := (L2.entryAt wi).getRating winningSide
  let oldLoserGamesPlayed := (L2.entryAt li).gamesPlayed
  let oldLoserRank := L2.getRank (L2.entryAt li).name
  let oldLoserRating := (L2.entryAt li).getRating losingSide
  match computeEloDiff oldWinnerRating oldLoserRating with
  | none => none
  | some scoreChange =>
    let s1 := L2.store.set wi
      ((L2.entryAt wi).setRating winningSide (oldWinnerRating + scoreChange))
    let s2 := s1.set li
      ((s1.getD li (wotrGetDefaultEntry "")).setRating losingSide
        (oldLoserRating - scoreChange))
    let s3 := s2.set wi
      (let e := s2.getD wi (wotrGetDefaultEntry ""); { e with gamesPlayed := e.gamesPlayed + 1 })
    let s4 := s3.set li
      (let e := s3.getD li (wotrGetDefaultEntry ""); { e with gamesPlayed := e.gamesPlayed + 1 })
    let L3 : WotrLadder := { L2 with store := s4, entries := sortEntries s4 L2.entries }
    let newWinnerRating := (L3.entryAt wi).getRating winningSide
    let newLoserRating := (L3.entryAt li).getRating losingSide
    some (L3,
      [oldWinnerGamesPlayed, (oldWinnerRank : ℚ), oldWinnerRating, newWinnerRating,
        oldLoserGamesPlayed, (oldLoserRank : ℚ), oldLoserRating, newLoserRating])

theorem getD_set_self {α : Type} (l : List α) {i : Nat} (h : i < l.length) (a d : α) :
    (l.set i a).getD i d = a := by
  rw [List.getD_eq_getElem?_getD, List.getElem?_set_self h]
  rfl

theorem getD_set_ne {α : Type} (l : List α) {i j : Nat} (h : i ≠ j) (a d : α) :
    (l.set i a).getD j d = l.getD j d := by
  rw [List.getD_eq_getElem?_getD, List.getElem?_set_ne h, ← List.getD_eq_getElem?_getD]

theorem getRating_setRating_self (e : WotrLadderEntry) (s : WotrSide) (v : ℚ) :
    (e.setRating s v).getRating s = v := by
  cases s <;> rfl

theorem getRating_bumpGames (e : WotrLadderEntry) (s : WotrSide) :
    WotrLadderEntry.getRating { e with gamesPlayed := e.gamesPlayed + 1 } s = e.getRating s := by
  cases s <;> rfl

/-- Claim C2 (confirmed): processing a head-to-head ladder report whose winner and loser
resolve to distinct player entries changes the winner's winning-side rating by exactly the
negation of the change to the loser's losing-side rating (zero-sum). -/
theorem C2_processReport_zero_sum (L : WotrLadder) (r : WotrReport)
    (hladder : r.isLadderGame = true)
    (wi li : Nat)
    (hw : L.getEntry r.winner = some wi)
    (hl : L.getEntry r.loser = some li)
    (hwi : wi < L.store.length) (hli : li < L.store.length)
    (hne : wi ≠ li)
    (L2 : WotrLadder) (ann : List ℚ)
    (hp : L.processReport r = some (L2, ann)) :
    (L2.entryAt wi).getRating r.winningSide - (L.entryAt wi).getRating r.winningSide =
      -((L2.entryAt li).getRating r.losingSide - (L.entryAt li).getRating r.losingSide) := by
  simp only [WotrLadder.processReport, Ladder.resolveEntry, hw, hl] at hp
  cases hd : computeEloDiff ((L.entryAt wi).getRating r.winningSide)
      ((L.entryAt li).getRating r.losingSide) with
  | none => rw [hd] at hp; exact absurd hp (by simp)
  | some scoreChange =>
    rw [hd] at hp
    simp only [Option.some.injEq, Prod.mk.injEq] at hp
    obtain ⟨hL2, -⟩ := hp
    subst hL2
    simp only [Ladder.entryAt] at *
    rw [getD_set_ne _ (Ne.symm hne), getD_set_self _ (by simpa using hwi),
      getD_set_ne _ (Ne.symm hne), getD_set_self _ (by simpa using hwi),
      getD_set_self _ (by simpa using hli),
      getD_set_ne _ hne, getD_set_ne _ hne, getD_set_self _ (by simpa using hli)]
    rw [getRating_bumpGames, getRating_setRating_self,
      getRating_bumpGames, getRating_setRating_self]
    ring

/-- Concrete ladder entry for witnesses: Alice, Shadow 520 / Free 480, 10 games. -/
def c2Alice : WotrLadderEntry :=
  WotrLadderEntry.ofRow
    { rank := 1, name := "Alice", rating := 500, shadowRating := 520, freeRating := 480,
      gamesPlayed := 10 }

/-- Concrete ladder entry for witnesses: Bob, Shadow 480 / Free 500, 5 games. -/
def c2Bob : WotrLadderEntry :=
  WotrLadderEntry.ofRow
    { rank := 2, name := "Bob", rating := 490, shadowRating := 480, freeRating := 500,
      gamesPlayed := 5 }

/-- Concrete two-player ladder for the C2 witness. -/
def c2Ladder : WotrLadder := Ladder.ofEntries [c2Alice, c2Bob]

/-- Concrete ladder report: Alice (Shadow) beats Bob (Free). -/
def c2Report : WotrReport :=
  { row := [], winner := "Alice", loser := "Bob", victory := .shadowForcesCorruption,
    competitive := .ladder }

/-- The concrete result of processing `c2Report` on `c2Ladder`. -/
def c2Out : WotrLadder × List ℚ :=
  (c2Ladder.processReport c2Report).getD (c2Ladder, [])

/-- Witness for C2 at the concrete ladder and report: the winner gains exactly what the
loser loses. -/
theorem C2_witness :
    c2Ladder.processReport c2Report = some c2Out ∧
      (c2Out.1.entryAt 0).getRating c2Report.winningSide -
          (c2Ladder.entryAt 0).getRating c2Report.winningSide =
        -((c2Out.1.entryAt 1).getRating c2Report.losingSide -
            (c2Ladder.entryAt 1).getRating c2Report.losingSide) := by
  have hp : c2Ladder.processReport c2Report = some (c2Out.1, c2Out.2) := by
    with_unfolding_all rfl
  exact ⟨hp,
    C2_processReport_zero_sum c2Ladder c2Report (by decide) 0 1 (by decide) (by decide)
      (by decide) (by decide) (by decide) c2Out.1 c2Out.2 hp⟩

theorem findIdx?_some_spec {α : Type} (p : α → Bool) (d : α) :
    ∀ (l : List α) (i : Nat), l.findIdx? p = some i →
      i < l.length ∧ p (l.getD i d) = true ∧ ∀ j, j < i → p (l.getD j d) = false := by
  intro l
  induction l with
  | nil => intro i h; simp [List.findIdx?_nil] at h
  | cons a l ih =>
    intro i h
    rw [List.findIdx?_cons] at h
    by_cases hp : p a
    · rw [if_pos hp] at h
      obtain rfl : (0 : Nat) = i := by simpa using h
      exact ⟨by simp, by simpa using hp, by intro j hj; omega⟩
    · rw [if_neg hp, List.findIdx?_succ] at h
      cases hfl : l.findIdx? p with
      | none => rw [hfl] at h; simp at h
      | some iPred =>
        rw [hfl] at h
        simp at h
        subst h
        obtain ⟨hlen, hpi, hall⟩ := ih iPred hfl
        refine ⟨by simpa using Nat.succ_lt_succ hlen, by simpa using hpi, ?_⟩
        intro j hj
        cases j with
        | zero => simpa using hp
        | succ jPred => simpa using hall jPred (by omega)

/-- Claim C10 (confirmed): `getRank` returns the 1-based position of the first active
entry whose normalized name matches the normalized query (hence an integer ≥ 1), and
returns the sentinel 0 — without throwing — when no active entry matches. -/
theorem C10_getRank_spec (L : WotrLadder) (name : String) :
    (∀ k, k < L.entries.length →
      normalizeName (L.entryAt (L.entries.getD k 0)).name = normalizeName name →
      (∀ j, j < k → normalizeName (L.entryAt (L.entries.getD j 0)).name ≠ normalizeName name) →
      L.getRank name = k + 1 ∧ 1 ≤ L.getRank name) ∧
    ((∀ k, k < L.entries.length →
      normalizeName (L.entryAt (L.entries.getD k 0)).name ≠ normalizeName name) →
      L.getRank name = 0) := by
  constructor
  · intro k hk hmatch hfirst
    cases hf : L.entries.findIdx?
        (fun i => normalizeName (LadderEntryOps.entryName (L.entryAt i)) ==
          normalizeName name) with
    | none =>
      exfalso
      have hmem : L.entries.getD k 0 ∈ L.entries := by
        rw [List.getD_eq_getElem?_getD, List.getElem?_eq_getElem hk]
        exact List.getElem_mem hk
      have := (List.findIdx?_eq_none_iff.mp hf) _ hmem
      simp only [beq_eq_false_iff_ne, ne_eq] at this
      exact this hmatch
    | some i =>
      obtain ⟨hlen, hpi, hall⟩ := findIdx?_some_spec _ 0 _ _ hf
      have hik : i = k := by
        rcases Nat.lt_trichotomy i k with hlt | heq | hgt
        · exact absurd (by simpa using hpi) (hfirst i hlt)
        · exact heq
        · have := hall k hgt
          simp only [beq_eq_false_iff_ne, ne_eq] at this
          exact absurd hmatch this
      subst hik
      constructor
      · rw [Ladder.getRank, hf]
      · rw [Ladder.getRank, hf]
        exact Nat.succ_le_succ (Nat.zero_le _)
  · intro hnone
    have hf : L.entries.findIdx?
        (fun i => normalizeName (LadderEntryOps.entryName (L.entryAt i)) ==
          normalizeName name) = none := by
      rw [List.findIdx?_eq_none_iff]
      intro x hx
      obtain ⟨k, hk, rfl⟩ := List.mem_iff_getElem.mp hx
      have := hnone k hk
      rw [List.getD_eq_getElem?_getD, List.getElem?_eq_getElem hk] at this
      simpa using this
    rw [Ladder.getRank, hf]

/-- Witness for C10 at the concrete two-player ladder: Bob (second row, no earlier match)
gets rank 2, and a name absent from the active view gets the sentinel 0. -/
theorem C10_witness :
    Ladder.getRank c2Ladder "BOB" = 2 ∧ Ladder.getRank c2Ladder "nobody" = 0 := by
  constructor
  · exact ((C10_getRank_spec c2Ladder "BOB").1 1 (by decide) (by decide) (by decide)).1
  · exact (C10_getRank_spec c2Ladder "nobody").2 (by decide)

/-- Claim C9 (corrected): `Ladder.normalize` lower-cases but does **not** trim, so getEntry
resolves identically exactly for names agreeing after lower-casing alone. -/
theorem C9_getEntry_lowercase_agreement (T : Type) (L : Ladder T) (n1 n2 : String)
    (h : jsToLower n1 = jsToLower n2) :
    L.getEntry n1 = L.getEntry n2 := by
  rw [Ladder.getEntry, Ladder.getEntry, normalizeName, normalizeName, h]

/-- Witness for C9: two case-variants of Alice resolve to the same entry of the concrete
ladder. -/
theorem C9_witness :
    jsToLower "ALICE" = jsToLower "alice" ∧
      Ladder.getEntry c2Ladder "ALICE" = Ladder.getEntry c2Ladder "alice" :=
  ⟨by decide, C9_getEntry_lowercase_agreement _ c2Ladder "ALICE" "alice" (by decide)⟩

/-- Counterexample for C9 as frozen: `"bob"` and `"Bob "` agree after trim + lowercase,
yet on the concrete ladder the first resolves to Bob's entry and the second to nothing,
because `Ladder.normalize` in `src/objects.ts` does not trim. -/
theorem C9_counterexample :
    jsToLower (jsTrim "bob") = jsToLower (jsTrim "Bob ") ∧
      Ladder.getEntry c2Ladder "bob" = some 1 ∧
      Ladder.getEntry c2Ladder "Bob " = none ∧
      Ladder.getEntry c2Ladder "bob" ≠ Ladder.getEntry c2Ladder "Bob " := by
  refine ⟨by decide, by decide, by decide, by decide⟩

/-- The `'NOT ACTIVE PLAYERS'` divider row (its rating cells hold the empty string in the
sheet; the script never reads them, they are modelled as 0). -/
def c4Divider : WotrLadderEntry :=
  { name := "NOT ACTIVE PLAYERS", shadowRating := 0, freeRating := 0, gamesPlayed := 0 }

/-- An inactive player sitting below the divider. -/
def c4Bob : WotrLadderEntry :=
  { name := "Bob", shadowRating := 500, freeRating := 500, gamesPlayed := 7 }

/-- A ladder whose rows are the divider followed by inactive Bob. -/
def c4Ladder : WotrLadder := Ladder.ofEntries [c4Divider, c4Bob]

/-- A ladder report in which inactive Bob (Shadow) beats newcomer Alice. -/
def c4Report : WotrReport :=
  { row := [], winner := "Bob", loser := "Alice", victory := .shadowForcesMilitary,
    competitive := .ladder }

/-- Claim C4 (corrected): when the source rows contain the `'NOT ACTIVE PLAYERS'` sentinel
at position `k`, the constructor keeps every row in `originalEntries` but cuts `entries`
to the strict prefix before the sentinel, so entries at or after the sentinel never appear
in the ranking view.  (They can, however, still receive rating updates — see the
counterexample.) -/
theorem C4_sentinel_partition (es : List WotrLadderEntry) (k : Nat)
    (hk : (es.map (fun e => e.name)).findIdx? (fun n => n == "NOT ACTIVE PLAYERS") = some k) :
    (Ladder.ofEntries es).originalEntries = List.range es.length ∧
      (Ladder.ofEntries es).entries = List.range k ∧
      ∀ i ∈ (Ladder.ofEntries es).entries, i < k := by
  have hk2 : (es.map LadderEntryOps.entryName).findIdx?
      (fun n => n == "NOT ACTIVE PLAYERS") = some k := hk
  refine ⟨rfl, ?_, ?_⟩
  · simp only [Ladder.ofEntries, hk2]
  · simp only [Ladder.ofEntries, hk2]
    intro i hi
    simpa using List.mem_range.mp hi

/-- Witness for C4 at the concrete sentinel ladder: the sentinel sits at row 0, so the
active view is empty while both rows are retained in `originalEntries`. -/
theorem C4_witness :
    c4Ladder.originalEntries = List.range 2 ∧ c4Ladder.entries = List.range 0 ∧
      ∀ i ∈ c4Ladder.entries, i < 0 :=
  C4_sentinel_partition [c4Divider, c4Bob] 0 (by decide)

/-- Counterexample for C4 as frozen: Bob sits after the sentinel (not in the active
`entries` view), yet processing a report that names him as winner raises his Shadow
rating from 500 to 516 — inactive players do participate in rating updates. -/
theorem C4_counterexample :
    (1 ∉ c4Ladder.entries) ∧
      (c4Ladder.entryAt 1).name = "Bob" ∧
      (c4Ladder.entryAt 1).shadowRating = 500 ∧
      (c4Ladder.processReport c4Report).map (fun p => (p.1.entryAt 1).shadowRating) =
        some 516 := by
  exact ⟨by decide, by decide, by decide, by with_unfolding_all rfl⟩

/-- A mutating ladder operation, for stating reachability: `addPlayer` or
`processReport`. -/
inductive LadderOp where
  | add (name : String)
  | process (r : WotrReport)

/-- Apply one ladder operation (a processing failure propagates as `none`). -/
def applyOp (L : WotrLadder) : LadderOp → Option WotrLadder
  | .add name => some (L.addPlayer name).2
  | .process r => (L.processReport r).map Prod.fst

/-- Apply a sequence of ladder operations from a starting state. -/
def applyOps (L : WotrLadder) : List LadderOp → Option WotrLadder
  | [] => some L
  | op :: ops =>
    match applyOp L op with
    | none => none
    | some L2 => applyOps L2 ops

/-- The set-equality invariant of claim C5: `entries` and `originalEntries` reference the
same set of entry objects (store indices). -/
def entriesSetEqOriginal (L : WotrLadder) : Prop :=
  ∀ i, i ∈ L.entries ↔ i ∈ L.originalEntries

theorem mem_sortEntries {T : Type} [LadderEntryOps T] (store : List T) (idxs : List Nat)
    (i : Nat) : i ∈ sortEntries store idxs ↔ i ∈ idxs :=
  (jsSortBy_perm _ idxs).mem_iff

theorem entriesSetEq_addPlayer (L : WotrLadder) (h : entriesSetEqOriginal L) (name : String) :
    entriesSetEqOriginal (L.addPlayer name).2 := by
  intro i
  simp only [Ladder.addPlayer, mem_sortEntries, List.mem_append, List.mem_singleton]
  rw [h i]

theorem entriesSetEq_resolveEntry (L : WotrLadder) (h : entriesSetEqOriginal L)
    (name : String) : entriesSetEqOriginal (Ladder.resolveEntry L name).2 := by
  rw [Ladder.resolveEntry]
  cases hE : L.getEntry name with
  | some i => exact h
  | none => exact entriesSetEq_addPlayer L h name

theorem entriesSetEq_processReport (L : WotrLadder) (h : entriesSetEqOriginal L)
    (r : WotrReport) (L2 : WotrLadder) (ann : List ℚ)
    (hp : L.processReport r = some (L2, ann)) : entriesSetEqOriginal L2 := by
  have h1 : entriesSetEqOriginal (Ladder.resolveEntry L r.winner).2 :=
    entriesSetEq_resolveEntry L h r.winner
  have h2 : entriesSetEqOriginal
      (Ladder.resolveEntry (Ladder.resolveEntry L r.winner).2 r.loser).2 :=
    entriesSetEq_resolveEntry _ h1 r.loser
  rw [WotrLadder.processReport] at hp
  set M := (Ladder.resolveEntry (Ladder.resolveEntry L r.winner).2 r.loser).2 with hM
  cases hd : computeEloDiff
      ((M.entryAt (Ladder.resolveEntry L r.winner).1).getRating r.winningSide)
      ((M.entryAt (Ladder.resolveEntry (Ladder.resolveEntry L r.winner).2 r.loser).1).getRating
        r.losingSide) with
  | none => rw [hd] at hp; exact absurd hp (by simp)
  | some scoreChange =>
    rw [hd] at hp
    simp only [Option.some.injEq, Prod.mk.injEq] at hp
    obtain ⟨hL2, -⟩ := hp
    subst hL2
    intro i
    simp only [mem_sortEntries]
    exact h2 i

theorem applyOps_entriesSetEq :
    ∀ (ops : List LadderOp) (L L2 : WotrLadder), entriesSetEqOriginal L →
      applyOps L ops = some L2 → entriesSetEqOriginal L2 := by
  intro ops
  induction ops with
  | nil =>
    intro L L2 h hap
    rw [applyOps] at hap
    obtain rfl : L = L2 := by simpa using hap
    exact h
  | cons op ops ih =>
    intro L L2 h hap
    rw [applyOps] at hap
    cases hop : applyOp L op with
    | none => rw [hop] at hap; simp at hap
    | some L1 =>
      rw [hop] at hap
      refine ih L1 L2 ?_ hap
      cases op with
      | add name =>
        simp only [applyOp, Option.some.injEq] at hop
        rw [← hop]
        exact entriesSetEq_addPlayer L h name
      | process r =>
        simp only [applyOp] at hop
        cases hpr : L.processReport r with
        | none => rw [hpr] at hop; simp at hop
        | some res =>
          rw [hpr] at hop
          obtain rfl : res.1 = L1 := by simpa using hop
          exact entriesSetEq_processReport L h r res.1 res.2 (by rw [hpr])

/-- Claim C5 (corrected): when the constructor input contains no
`'NOT ACTIVE PLAYERS'` sentinel row, every state reachable by `addPlayer` /
`processReport` operations keeps `entries` and `originalEntries` set-equal.  (With a
sentinel present the invariant is already false at construction — see the
counterexample.) -/
theorem C5_entries_setEq_reachable (es : List WotrLadderEntry)
    (hs : ∀ e ∈ es, e.name ≠ "NOT ACTIVE PLAYERS")
    (ops : List LadderOp) (L2 : WotrLadder)
    (h : applyOps (Ladder.ofEntries es) ops = some L2) :
    entriesSetEqOriginal L2 := by
  refine applyOps_entriesSetEq ops (Ladder.ofEntries es) L2 ?_ h
  have hidx : (es.map LadderEntryOps.entryName).findIdx?
      (fun n => n == "NOT ACTIVE PLAYERS") = none := by
    rw [List.findIdx?_eq_none_iff]
    intro x hx
    obtain ⟨e, he, rfl⟩ := List.mem_map.mp hx
    simpa using hs e he
  intro i
  simp only [Ladder.ofEntries, hidx]

/-- The result of adding Carol to the sentinel-free two-player ladder. -/
def c5Out : WotrLadder :=
  (applyOps (Ladder.ofEntries [c2Alice, c2Bob]) [LadderOp.add ("Carol")]).getD
    (Ladder.ofEntries [])

/-- Witness for C5: after adding a player to the sentinel-free concrete ladder, the two
views still hold the same index set. -/
theorem C5_witness :
    applyOps (Ladder.ofEntries [c2Alice, c2Bob]) [LadderOp.add ("Carol")] = some c5Out ∧
      entriesSetEqOriginal c5Out := by
  have hap : applyOps (Ladder.ofEntries [c2Alice, c2Bob]) [LadderOp.add ("Carol")] =
      some c5Out := by with_unfolding_all rfl
  exact ⟨hap, C5_entries_setEq_reachable [c2Alice, c2Bob] (by decide) _ c5Out hap⟩

/-- Counterexample for C5 as frozen: the ladder constructed from rows containing the
sentinel is reachable (empty operation sequence), holds index 1 (inactive Bob) in
`originalEntries`, but not in `entries` — the two views are not set-equal. -/
theorem C5_counterexample :
    applyOps c4Ladder [] = some c4Ladder ∧
      (1 ∈ c4Ladder.originalEntries) ∧ (1 ∉ c4Ladder.entries) ∧
      ¬ entriesSetEqOriginal c4Ladder := by
  refine ⟨rfl, by decide, by decide, fun hAll => ?_⟩
  exact absurd ((hAll 1).mpr (by decide)) (by decide)

/-- Validation failure raised by a row parser (`throw new Error(...)` in
`src/types/wotrTypes.ts`): not an array, wrong width, or a typed field check failing at an
index with an expected-type name. -/
inductive ParseError where
  | notArray
  | badLength (got : Nat)
  | badField (idx : Nat) (expected : String)
deriving DecidableEq

/-- The `EXPANSION` literal list from `src/types/wotrTypes.ts`. -/
def EXPANSION : List String :=
  ["Base", "LoME", "WoME", "LoME+WoME", "KoME", "KoME+LoME", "KoME+WoME", "KoME+LoME+WoME"]

/-- The `VICTORY` literal list from `src/types/wotrTypes.ts`. -/
def VICTORY : List String :=
  ["Free People Ring", "Free People Military", "Conceded FP won", "Shadow Forces Corruption",
    "Shadow Forces Military", "Conceded SP won"]

/-- The `COMPETITIVE` literal list from `src/types/wotrTypes.ts`. -/
def COMPETITIVE : List String :=
  ["Friendly", "Ladder", "Ladder and tournament", "Ladder and league (general)",
    "Ladder and league (lome)", "Ladder and league (TTS)", "Ladder and league (wome)",
    "Ladder and league (super)", "Ladder but I cannot remember the stats"]

/-- `unionParser`/`createTypeGuard` over a string literal list (`variants.includes(val)`). -/
def isUnionMember (variants : List String) (v : CellValue) : Bool :=
  match v with
  | .str s => variants.contains s
  | _ => false

/-- `typeof val === 'string'`. -/
def isStringCell : CellValue → Bool
  | .str _ => true
  | _ => false

/-- `typeof val === 'number'`. -/
def isNumberCell : CellValue → Bool
  | .num _ => true
  | _ => false

/-- `Object.prototype.toString.call(val) === '[object Date]'`. -/
def isDateCell : CellValue → Bool
  | .date => true
  | _ => false

/-- The `TICK_BOX` guard (`val === 1 || val === ''`). -/
def isTickBox : CellValue → Bool
  | .num q => q == 1
  | .str s => s == ""
  | _ => false

/-- The `YES_BOX` guard (`val === 'Yes' || val === ''`). -/
def isYesBox : CellValue → Bool
  | .str s => s == "Yes" || s == ""
  | _ => false

/-- The per-position field rule of `parseWotrReportRow` from `src/types/wotrTypes.ts`:
each arm transcribes the corresponding `if` statement of the source (index 31 accepts a
number or the empty string). -/
def wotrReportFieldOk : Nat → CellValue → Bool
  | 0, v => isDateCell v
  | 1, v => isNumberCell v
  | 2, v => isStringCell v
  | 3, v => isStringCell v
  | 4, v => isUnionMember EXPANSION v
  | 5, v => isUnionMember VICTORY v
  | 6, v => isUnionMember COMPETITIVE v
  | 7, v => isYesBox v
  | 8, v => isYesBox v
  | 9, v => isYesBox v
  | 10, v => isStringCell v
  | 11, v => isStringCell v
  | 12, v => isNumberCell v
  | 13, v => isTickBox v
  | 14, v => isNumberCell v
  | 15, v => isNumberCell v
  | 16, v => isTickBox v
  | 17, v => isNumberCell v
  | 18, v => isTickBox v
  | 19, v => isTickBox v
  | 20, v => isTickBox v
  | 21, v => isTickBox v
  | 22, v => isTickBox v
  | 23, v => isTickBox v
  | 24, v => isTickBox v
  | 25, v => isTickBox v
  | 26, v => isTickBox v
  | 27, v => isTickBox v
  | 28, v => isTickBox v
  | 29, v => isTickBox v
  | 30, v => isTickBox v
  | 31, v => isNumberCell v || (match v with | .str s => s == "" | _ => false)
  | 32, v => isStringCell v
  | 33, v => isStringCell v
  | 34, v => isTickBox v
  | 35, v => isTickBox v
  | 36, v => isTickBox v
  | 37, v => isTickBox v
  | 38, v => isTickBox v
  | 39, v => isTickBox v
  | 40, v => isTickBox v
  | 41, v => isTickBox v
  | 42, v => isTickBox v
  | 43, v => isTickBox v
  | 44, v => isTickBox v
  | 45, v => isTickBox v
  | 46, v => isTickBox v
  | _, _ => true

/-- The expected-type name carried by each field's error message in `parseWotrReportRow`. -/
def wotrExpectedType (i : Nat) : String :=
  if i = 0 then "Date"
  else if i = 1 ∨ i = 12 ∨ i = 14 ∨ i = 15 ∨ i = 17 then "number"
  else if i = 2 ∨ i = 3 ∨ i = 10 ∨ i = 11 ∨ i = 32 ∨ i = 33 then "string"
  else if i = 4 then "Expansion"
  else if i = 5 then "Victory"
  else if i = 6 then "Competitive"
  else if i = 7 ∨ i = 8 ∨ i = 9 then "YesBox"
  else if i = 31 then "number or empty"
  else "TickBox"

/-- The sequential field checks of `parseWotrReportRow`, iterated over the field indices
in ascending order (the source spells them out as 47 consecutive `if` statements); the
first failing index aborts with its error. -/
def checkWotrFields (xs : List CellValue) : List Nat → Except ParseError Unit
  | [] => .ok ()
  | i :: rest =>
    if wotrReportFieldOk i (xs.getD i .other) then checkWotrFields xs rest
    else .error (.badField i (wotrExpectedType i))

/-- Trim a string cell (the `report[2].trim()` mutation); other cells are untouched. -/
def trimCell : CellValue → CellValue
  | .str s => .str (jsTrim s)
  | v => v

/-- The two in-place name trims `report[2] = report[2].trim()` and
`report[3] = report[3].trim()` performed before returning (the second read is unaffected
by the first write since the indices differ). -/
def applyNameTrims (xs : List CellValue) : List CellValue :=
  (xs.set 2 (trimCell (xs.getD 2 .other))).set 3 (trimCell (xs.getD 3 .other))

/-- `parseWotrReportRow` from `src/types/wotrTypes.ts`: reject non-arrays, reject a wrong
width, run the 47 per-field checks in order, then return the input row with the winner and
loser name fields trimmed. -/
def parseWotrReportRow (val : CellValue) : Except ParseError (List CellValue) :=
  match val with
  | .arr xs =>
    if xs.length ≠ 47 then .error (.badLength xs.length)
    else
      match checkWotrFields xs (List.range 47) with
      | .error e => .error e
      | .ok _ => .ok (applyNameTrims xs)
  | _ => .error .notArray

theorem checkWotrFields_eq_find (xs : List CellValue) :
    ∀ idxs : List Nat,
      checkWotrFields xs idxs =
        match idxs.find? (fun i => !(wotrReportFieldOk i (xs.getD i .other))) with
        | none => .ok ()
        | some i => .error (.badField i (wotrExpectedType i)) := by
  intro idxs
  induction idxs with
  | nil => rfl
  | cons i rest ih =>
    rw [checkWotrFields, List.find?_cons]
    cases h : wotrReportFieldOk i (xs.getD i CellValue.other) with
    | true =>
      rw [if_pos rfl, ih]
      simp
    | false =>
      rw [if_neg (by simp)]
      simp

theorem find?_some_first {α : Type} (p : α → Bool) (d : α) :
    ∀ (l : List α) (x : α), l.find? p = some x →
      ∃ i, i < l.length ∧ l.getD i d = x ∧ p x = true ∧
        ∀ j, j < i → p (l.getD j d) = false := by
  intro l
  induction l with
  | nil => intro x h; simp at h
  | cons a l ih =>
    intro x h
    rw [List.find?_cons] at h
    cases hp : p a with
    | true =>
      rw [hp] at h
      have h2 : some a = some x := h
      obtain rfl : a = x := by simpa using h2
      exact ⟨0, by simp, by simp, hp, by intro j hj; omega⟩
    | false =>
      rw [hp] at h
      have h2 : l.find? p = some x := h
      obtain ⟨i, hlen, hget, hx, hfirst⟩ := ih x h2
      refine ⟨i + 1, by simpa using Nat.succ_lt_succ hlen, by simpa using hget, hx, ?_⟩
      intro j hj
      cases j with
      | zero => simpa using hp
      | succ jPred => simpa using hfirst jPred (by omega)

theorem find?_of_first {α : Type} (p : α → Bool) (d : α) :
    ∀ (l : List α) (i : Nat), i < l.length → p (l.getD i d) = true →
      (∀ j, j < i → p (l.getD j d) = false) → l.find? p = some (l.getD i d) := by
  intro l
  induction l with
  | nil => intro i h; simp at h
  | cons a l ih =>
    intro i hi hp hfirst
    rw [List.find?_cons]
    cases i with
    | zero =>
      have hpa : p a = true := by simpa using hp
      rw [hpa]
      simp
    | succ iPred =>
      have ha : p a = false := by simpa using hfirst 0 (Nat.succ_pos iPred)
      rw [ha]
      have := ih iPred (by simpa using Nat.lt_of_succ_lt_succ hi) (by simpa using hp)
        (fun j hj => by simpa using hfirst (j + 1) (Nat.succ_lt_succ hj))
      simpa using this

/-- Claim C6 (corrected): `parseWotrReportRow` returns a row — equal to its input with the
winner (2) and loser (3) name fields trimmed — if and only if the input is an array of
length 47 whose every field passes its per-position rule; an array of length 47 with an
offending field fails with the first offending index and its expected type.  (A non-array
or wrong-length input fails with an array/length error instead, which is where the frozen
claim is corrected — see the counterexample.) -/
theorem C6_parseWotrReportRow_spec (v : CellValue) :
    (∀ out, parseWotrReportRow v = .ok out ↔
      ∃ xs, v = .arr xs ∧ xs.length = 47 ∧
        (∀ j, j < 47 → wotrReportFieldOk j (xs.getD j .other) = true) ∧
        out = applyNameTrims xs) ∧
    (∀ xs, v = .arr xs → xs.length = 47 →
      ∀ k, k < 47 → wotrReportFieldOk k (xs.getD k .other) = false →
        (∀ j, j < k → wotrReportFieldOk j (xs.getD j .other) = true) →
        parseWotrReportRow v = .error (.badField k (wotrExpectedType k))) := by
  constructor
  · intro out
    constructor
    · intro h
      cases v with
      | arr xs =>
        rw [parseWotrReportRow] at h
        by_cases hlen : xs.length = 47
        · rw [if_neg (by simp [hlen])] at h
          cases hc : checkWotrFields xs (List.range 47) with
          | error e => rw [hc] at h; exact absurd h (by simp)
          | ok u =>
            refine ⟨xs, rfl, hlen, ?_, ?_⟩
            · intro j hj
              rw [checkWotrFields_eq_find] at hc
              cases hf : (List.range 47).find?
                  (fun i => !(wotrReportFieldOk i (xs.getD i .other))) with
              | some i => rw [hf] at hc; exact absurd hc (by simp)
              | none =>
                have := List.find?_eq_none.mp hf j (by simpa using hj)
                simpa using this
            · rw [hc] at h; simpa using h.symm
        · rw [if_pos (by simp [hlen])] at h
          exact absurd h (by simp)
      | str s => exact absurd h (by simp [parseWotrReportRow])
      | num q => exact absurd h (by simp [parseWotrReportRow])
      | date => exact absurd h (by simp [parseWotrReportRow])
      | other => exact absurd h (by simp [parseWotrReportRow])
    · rintro ⟨xs, rfl, hlen, hall, rfl⟩
      rw [parseWotrReportRow, if_neg (by simp [hlen]), checkWotrFields_eq_find]
      have hf : (List.range 47).find?
          (fun i => !(wotrReportFieldOk i (xs.getD i .other))) = none := by
        rw [List.find?_eq_none]
        intro j hj
        have hj47 : j < 47 := by simpa using hj
        have hx := hall j hj47
        rw [List.getD_eq_getElem?_getD] at hx
        simp [hx]
      rw [hf]
  · intro xs hv hlen k hk hbad hfirst
    subst hv
    rw [parseWotrReportRow, if_neg (by simp [hlen]), checkWotrFields_eq_find]
    have hgd : (List.range 47).getD k 0 = k := by
      rw [List.getD_eq_getElem?_getD, List.getElem?_eq_getElem (by simpa using hk)]
      simp
    have hf : (List.range 47).find?
        (fun i => !(wotrReportFieldOk i (xs.getD i .other))) = some k := by
      have := find?_of_first (fun i => !(wotrReportFieldOk i (xs.getD i .other))) 0
        (List.range 47) k (by simpa using hk)
        (by
          rw [hgd]
          have hx := hbad
          rw [List.getD_eq_getElem?_getD] at hx
          simp [hx])
        (by
          intro j hj
          have hgdj : (List.range 47).getD j 0 = j := by
            rw [List.getD_eq_getElem?_getD,
              List.getElem?_eq_getElem (by simpa using lt_trans hj hk)]
            simp
          rw [hgdj]
          have hx := hfirst j hj
          rw [List.getD_eq_getElem?_getD] at hx
          simp [hx])
      rw [hgd] at this
      exact this
    rw [hf]

/-- A well-formed raw 47-cell report row with untrimmed winner and loser names. -/
def sampleWotrRow : List CellValue :=
  [.date, .num 5, .str " Alice ", .str "Bob ", .str "Base", .str "Free People Ring",
    .str "Ladder", .str "Yes", .str "", .str "", .str "3", .str "2", .num 0, .num 1,
    .num 0, .num 3, .str "", .num 2, .str "", .str "", .str "", .str "", .str "",
    .str "", .str "", .str "", .str "", .str "", .str "", .str "", .str "", .num 8,
    .str "gg", .str "", .str "", .str "", .str "", .str "", .str "", .str "", .str "",
    .str "", .str "", .str "", .str "", .str "", .str ""]

/-- Witness for C6: the sample row parses, returning the input with the name fields
(positions 2 and 3) trimmed. -/
theorem C6_witness :
    parseWotrReportRow (.arr sampleWotrRow) = .ok (applyNameTrims sampleWotrRow) ∧
      cellStr ((applyNameTrims sampleWotrRow).getD 2 .other) = "Alice" ∧
      cellStr ((applyNameTrims sampleWotrRow).getD 3 .other) = "Bob" ∧
      cellStr (sampleWotrRow.getD 2 .other) = " Alice " := by
  refine ⟨((C6_parseWotrReportRow_spec (.arr sampleWotrRow)).1 _).mpr
    ⟨sampleWotrRow, rfl, by decide, by decide, rfl⟩, by decide, by decide, by decide⟩

/-- Counterexample for C6 as frozen: the empty array is rejected, but with a length error
that names no offending field index and no expected type. -/
theorem C6_counterexample :
    parseWotrReportRow (.arr []) = .error (.badLength 0) ∧
      (∀ i e, ParseError.badLength 0 ≠ ParseError.badField i e) := by
  exact ⟨rfl, fun i e h => ParseError.noConfusion h⟩

/-- The `CardRole` union type from `src/types/cardGameTypes.ts`. -/
inductive CardRole where
  | witchKing
  | saruman
  | frodo
  | aragorn
deriving DecidableEq

/-- The `CardSide` union type from `src/types/cardGameTypes.ts`. -/
inductive CardSide where
  | shadow
  | free
deriving DecidableEq

/-- The `CardWinner` union type (`'FP' | 'SP' | 'Two Tower / Return of the King'`). -/
inductive CardWinner where
  | fp
  | sp
  | twoTowerReturn
deriving DecidableEq

/-- The `CardCompetitive` union type (`'Friendly' | 'Ladder'`). -/
inductive CardCompetitive where
  | friendly
  | ladder
deriving DecidableEq

/-- The card-ladder row as the script actually indexes it.  `CardLadderRow` in
`src/types/cardGameTypes.ts` declares 14 columns `[rank, flag, name, averageRating,
witchKingRating, sarumanRating, frodoRating, aragornRating, averageFPRating,
averageSPRating, gamesPlayed, gamesPlayed4, gamesPlayed3, gamesPlayed2]`; the
`CardLadderEntry` methods additionally index columns 14–22 (present on the default entry
`[0,'',name,500,500,500,500,500,500,500,0,0,0,0,'',0,0,0,0,0,0,0,0]`): column 14, then
per-role games/wins pairs for WitchKing (15,16), Saruman (17,18), Frodo (19,20) and
Aragorn (21,22). -/
structure CardLadderRow where
  rank : ℚ
  flag : Unit := ()
  name : String
  rating : ℚ
  witchKingRating : ℚ
  sarumanRating : ℚ
  frodoRating : ℚ
  aragornRating : ℚ
  avgFPRating : ℚ
  avgSPRating : ℚ
  gamesPlayed : ℚ
  gamesPlayed4 : ℚ
  gamesPlayed3 : ℚ
  gamesPlayed2 : ℚ
  col14 : String := ""
  witchKingGames : ℚ
  witchKingWins : ℚ
  sarumanGames : ℚ
  sarumanWins : ℚ
  frodoGames : ℚ
  frodoWins : ℚ
  aragornGames : ℚ
  aragornWins : ℚ

/-- The `CardLadderEntry` class from `src/objects.ts` (`row` plus `name = row[2]`). -/
structure CardLadderEntry where
  row : CardLadderRow
  name : String

/-- The `CardLadderEntry` constructor. -/
def CardLadderEntry.ofRow (row : CardLadderRow) : CardLadderEntry :=
  { row := row, name := row.name }

/-- `CardLadderEntry.getRoleRating` from `src/objects.ts` (`row[4..7]`). -/
def CardLadderEntry.getRoleRating (e : CardLadderEntry) : CardRole → ℚ
  | .witchKing => e.row.witchKingRating
  | .saruman => e.row.sarumanRating
  | .frodo => e.row.frodoRating
  | .aragorn => e.row.aragornRating

/-- `CardLadderEntry.avgRating` from `src/objects.ts`. -/
def CardLadderEntry.avgRating (e : CardLadderEntry) : ℚ :=
  (e.getRoleRating .witchKing + e.getRoleRating .saruman + e.getRoleRating .frodo +
    e.getRoleRating .aragorn) / 4

/-- `CardLadderEntry.setRating` from `src/objects.ts` (writes `row[4..7]`). -/
def CardLadderEntry.setRating (e : CardLadderEntry) (role : CardRole) (value : ℚ) :
    CardLadderEntry :=
  match role with
  | .witchKing => { e with row := { e.row with witchKingRating := value } }
  | .saruman => { e with row := { e.row with sarumanRating := value } }
  | .frodo => { e with row := { e.row with frodoRating := value } }
  | .aragorn => { e with row := { e.row with aragornRating := value } }

/-- `CardLadderEntry.incrementTotalGameCount` from `src/objects.ts`: bump the all-time
total (`row[10]`) and the per-player-count total (`row[11..13]`); any other player count
throws. -/
def CardLadderEntry.incrementTotalGameCount (e : CardLadderEntry) (playerCount : Nat) :
    Option CardLadderEntry :=
  match playerCount with
  | 4 => some { e with row := { e.row with gamesPlayed := e.row.gamesPlayed + 1, gamesPlayed4 := e.row.gamesPlayed4 + 1 } }
  | 3 => some { e with row := { e.row with gamesPlayed := e.row.gamesPlayed + 1, gamesPlayed3 := e.row.gamesPlayed3 + 1 } }
  | 2 => some { e with row := { e.row with gamesPlayed := e.row.gamesPlayed + 1, gamesPlayed2 := e.row.gamesPlayed2 + 1 } }
  | _ => none

/-- `CardLadderEntry.incrementRoleGameCount` from `src/objects.ts`
(`row[15]/row[17]/row[19]/row[21]`). -/
def CardLadderEntry.incrementRoleGameCount (e : CardLadderEntry) : CardRole → CardLadderEntry
  | .witchKing => { e with row := { e.row with witchKingGames := e.row.witchKingGames + 1 } }
  | .saruman => { e with row := { e.row with sarumanGames := e.row.sarumanGames + 1 } }
  | .frodo => { e with row := { e.row with frodoGames := e.row.frodoGames + 1 } }
  | .aragorn => { e with row := { e.row with aragornGames := e.row.aragornGames + 1 } }

/-- `CardLadderEntry.incrementWinCount` from `src/objects.ts`
(`row[16]/row[18]/row[20]/row[22]`). -/
def CardLadderEntry.incrementWinCount (e : CardLadderEntry) : CardRole → CardLadderEntry
  | .witchKing => { e with row := { e.row with witchKingWins := e.row.witchKingWins + 1 } }
  | .saruman => { e with row := { e.row with sarumanWins := e.row.sarumanWins + 1 } }
  | .frodo => { e with row := { e.row with frodoWins := e.row.frodoWins + 1 } }
  | .aragorn => { e with row := { e.row with aragornWins := e.row.aragornWins + 1 } }

/-- The `CardReport` class from `src/objects.ts`: the raw validated 14-cell row plus the
constructor-extracted `competitive = row[5]` and `victory = row[6]`. -/
structure CardReport where
  row : List CellValue
  competitive : CardCompetitive
  victory : CardWinner

/-- `CardReport.getPlayer` from `src/objects.ts` (`row[1..4]`). -/
def CardReport.getPlayer (r : CardReport) : CardRole → String
  | .witchKing => cellStr (r.row.getD 1 .other)
  | .saruman => cellStr (r.row.getD 2 .other)
  | .frodo => cellStr (r.row.getD 3 .other)
  | .aragorn => cellStr (r.row.getD 4 .other)

/-- `CardReport.playerCount` from `src/objects.ts`: the number of distinct lower-cased
player names among the four role slots (`new Set([...]).size`). -/
def CardReport.playerCount (r : CardReport) : Nat :=
  ([jsToLower (r.getPlayer .witchKing), jsToLower (r.getPlayer .saruman),
    jsToLower (r.getPlayer .frodo), jsToLower (r.getPlayer .aragorn)]).dedup.length

/-- `CardReport.winningSide` from `src/objects.ts`: FP wins give Free, SP wins give
Shadow, and the Two Tower / Return of the King variant throws (`none`). -/
def CardReport.winningSide (r : CardReport) : Option CardSide :=
  match r.victory with
  | .fp => some .free
  | .sp => some .shadow
  | .twoTowerReturn => none

/-- The side switch of `CardReport.losingSide` from `src/objects.ts`. -/
def cardOpposite : CardSide → CardSide
  | .free => .shadow
  | .shadow => .free

/-- The ternary `side === 'Shadow' ? 'WitchKing' : 'Frodo'` of `CardLadder.processReport`. -/
def sideRole1 : CardSide → CardRole
  | .shadow => .witchKing
  | .free => .frodo

/-- The ternary `side === 'Shadow' ? 'Saruman' : 'Aragorn'` of `CardLadder.processReport`. -/
def sideRole2 : CardSide → CardRole
  | .shadow => .saruman
  | .free => .aragorn

/-- `CardLadder.getDefaultEntry` from `src/objects.ts`:
`new CardLadderEntry([0, '', name, 500, 500, 500, 500, 500, 500, 500, 0, 0, 0, 0, '',
0, 0, 0, 0, 0, 0, 0, 0])`. -/
def cardGetDefaultEntry (name : String) : CardLadderEntry :=
  CardLadderEntry.ofRow
    { rank := 0, name := name, rating := 500, witchKingRating := 500, sarumanRating := 500,
      frodoRating := 500, aragornRating := 500, avgFPRating := 500, avgSPRating := 500,
      gamesPlayed := 0, gamesPlayed4 := 0, gamesPlayed3 := 0, gamesPlayed2 := 0,
      witchKingGames := 0, witchKingWins := 0, sarumanGames := 0, sarumanWins := 0,
      frodoGames := 0, frodoWins := 0, aragornGames := 0, aragornWins := 0 }

instance : LadderEntryOps CardLadderEntry where
  entryName e := e.name
  entryAvgRating := CardLadderEntry.avgRating
  defaultEntry := cardGetDefaultEntry

/-- The `CardLadder` class from `src/objects.ts`. -/
abbrev CardLadder : Type := Ladder CardLadderEntry

/-- Update the entry object at index `i` in the card store (one `entry.method(...)` call
on a shared object). -/
def cardUpd (s : List CardLadderEntry) (i : Nat) (f : CardLadderEntry → CardLadderEntry) :
    List CardLadderEntry :=
  s.set i (f (s.getD i (cardGetDefaultEntry "")))

/-- Update the entry object at index `i` with the fallible total-games bump. -/
def cardUpdTotal (s : List CardLadderEntry) (i : Nat) (playerCount : Nat) :
    Option (List CardLadderEntry) :=
  ((s.getD i (cardGetDefaultEntry "")).incrementTotalGameCount playerCount).map
    (fun e => s.set i e)

/-- `CardLadder.processReport` from `src/objects.ts`, step for step: resolve the victory
sides and the four role slots (auto-adding missing players, winners then losers), read the
four role ratings, average each team, compute the adjustment, apply it once per role slot,
then update win/games counters — a single person holding both slots of one side gets the
total-games bump only once (the `normalize(name) !== normalize(name)` guards) — and
finally re-sort `entries`.  A throw (unknown victory type, `computeEloDiff`, or an invalid
player count) propagates as `none`. -/
def CardLadder.processReport (L : CardLadder) (report : CardReport) : Option CardLadder :=
  match report.winningSide with
  | none => none
  | some winningSide =>
    let losingSide := cardOpposite winningSide
    let winningRole1 := sideRole1 winningSide
    let winningRole2 := sideRole2 winningSide
    let losingRole1 := sideRole1 losingSide
    let losingRole2 := sideRole2 losingSide
    let resW1 := Ladder.resolveEntry L (report.getPlayer winningRole1)
    let w1 := resW1.1
    let resW2 := Ladder.resolveEntry resW1.2 (report.getPlayer winningRole2)
    let w2 := resW2.1
    let resL1 := Ladder.resolveEntry resW2.2 (report.getPlayer losingRole1)
    let l1 := resL1.1
    let resL2 := Ladder.resolveEntry resL1.2 (report.getPlayer losingRole2)
    let l2 := resL2.1
    let M := resL2.2
    let winner1Rating := (M.entryAt w1).getRoleRating winningRole1
    let winner2Rating := (M.entryAt w2).getRoleRating winningRole2
    let winningTeamRating := (winner1Rating + winner2Rating) / 2
    let loser1Rating := (M.entryAt l1).getRoleRating losingRole1
    let loser2Rating := (M.entryAt l2).getRoleRating losingRole2
    let losingTeamRating := (loser1Rating + loser2Rating) / 2
    match computeEloDiff winningTeamRating losingTeamRating with
    | none => none
    | some scoreChange =>
      let s1 := cardUpd M.store w1 (fun e => e.setRating winningRole1 (winner1Rating + scoreChange))
      let s2 := cardUpd s1 w2 (fun e => e.setRating winningRole2 (winner2Rating + scoreChange))
      let s3 := cardUpd s2 l1 (fun e => e.setRating losingRole1 (loser1Rating - scoreChange))
      let s4 := cardUpd s3 l2 (fun e => e.setRating losingRole2 (loser2Rating - scoreChange))
      let playerCount := report.playerCount
      let s5 := cardUpd s4 w1 (fun e => e.incrementWinCount winningRole1)
      let s6 := cardUpd s5 w1 (fun e => e.incrementRoleGameCount winningRole1)
      match cardUpdTotal s6 w1 playerCount with
      | none => none
      | some s7 =>
        let s8 := cardUpd s7 w2 (fun e => e.incrementWinCount winningRole2)
        let s9 := cardUpd s8 w2 (fun e => e.incrementRoleGameCount winningRole2)
        let afterW2 : Option (List CardLadderEntry) :=
          if normalizeName ((s9.getD w1 (cardGetDefaultEntry "")).name) ≠
              normalizeName ((s9.getD w2 (cardGetDefaultEntry "")).name) then
            cardUpdTotal s9 w2 playerCount
          else some s9
        match afterW2 with
        | none => none
        | some s10 =>
          let s11 := cardUpd s10 l1 (fun e => e.incrementRoleGameCount losingRole1)
          match cardUpdTotal s11 l1 playerCount with
          | none => none
          | some s12 =>
            let s13 := cardUpd s12 l2 (fun e => e.incrementRoleGameCount losingRole2)
            let afterL2 : Option (List CardLadderEntry) :=
              if normalizeName ((s13.getD l1 (cardGetDefaultEntry "")).name) ≠
                  normalizeName ((s13.getD l2 (cardGetDefaultEntry "")).name) then
                cardUpdTotal s13 l2 playerCount
              else some s13
            match afterL2 with
            | none => none
            | some s14 =>
              some { M with store := s14, entries := sortEntries s14 M.entries }

theorem cardRole_setRating_self (e : CardLadderEntry) (role : CardRole) (v : ℚ) :
    (e.setRating role v).getRoleRating role = v := by
  cases role <;> rfl

theorem cardRole_setRating_ne (e : CardLadderEntry) {r1 r2 : CardRole} (h : r1 ≠ r2)
    (v : ℚ) : (e.setRating r2 v).getRoleRating r1 = e.getRoleRating r1 := by
  cases r1 <;> cases r2 <;> first | rfl | exact absurd rfl h

theorem cardRole_incWin (e : CardLadderEntry) (r1 r2 : CardRole) :
    (e.incrementWinCount r2).getRoleRating r1 = e.getRoleRating r1 := by
  cases r1 <;> cases r2 <;> rfl

theorem cardRole_incRoleGame (e : CardLadderEntry) (r1 r2 : CardRole) :
    (e.incrementRoleGameCount r2).getRoleRating r1 = e.getRoleRating r1 := by
  cases r1 <;> cases r2 <;> rfl

theorem cardRole_incTotal (e e2 : CardLadderEntry) (pc : Nat)
    (h : e.incrementTotalGameCount pc = some e2) (r : CardRole) :
    e2.getRoleRating r = e.getRoleRating r := by
  unfold CardLadderEntry.incrementTotalGameCount at h
  split at h <;> (try exact Option.noConfusion h) <;>
    (injection h with h2; subst h2; cases r <;> rfl)

theorem cardGames_setRating (e : CardLadderEntry) (r : CardRole) (v : ℚ) :
    (e.setRating r v).row.gamesPlayed = e.row.gamesPlayed := by
  cases r <;> rfl

theorem cardGames_incWin (e : CardLadderEntry) (r : CardRole) :
    (e.incrementWinCount r).row.gamesPlayed = e.row.gamesPlayed := by
  cases r <;> rfl

theorem cardGames_incRoleGame (e : CardLadderEntry) (r : CardRole) :
    (e.incrementRoleGameCount r).row.gamesPlayed = e.row.gamesPlayed := by
  cases r <;> rfl

theorem cardGames_incTotal (e e2 : CardLadderEntry) (pc : Nat)
    (h : e.incrementTotalGameCount pc = some e2) :
    e2.row.gamesPlayed = e.row.gamesPlayed + 1 := by
  unfold CardLadderEntry.incrementTotalGameCount at h
  split at h <;> (try exact Option.noConfusion h) <;>
    (injection h with h2; subst h2; rfl)

theorem cardName_setRating (e : CardLadderEntry) (r : CardRole) (v : ℚ) :
    (e.setRating r v).name = e.name := by
  cases r <;> rfl

theorem cardName_incWin (e : CardLadderEntry) (r : CardRole) :
    (e.incrementWinCount r).name = e.name := by
  cases r <;> rfl

theorem cardName_incRoleGame (e : CardLadderEntry) (r : CardRole) :
    (e.incrementRoleGameCount r).name = e.name := by
  cases r <;> rfl

theorem cardName_incTotal (e e2 : CardLadderEntry) (pc : Nat)
    (h : e.incrementTotalGameCount pc = some e2) : e2.name = e.name := by
  unfold CardLadderEntry.incrementTotalGameCount at h
  split at h <;> (try exact Option.noConfusion h) <;>
    (injection h with h2; subst h2; rfl)

theorem sideRole1_ne_sideRole2 (ws : CardSide) : sideRole1 ws ≠ sideRole2 ws := by
  cases ws <;> simp [sideRole1, sideRole2]

theorem cardUpd_length (s : List CardLadderEntry) (i : Nat)
    (f : CardLadderEntry → CardLadderEntry) : (cardUpd s i f).length = s.length :=
  List.length_set s i _

theorem cardUpd_getD_self (s : List CardLadderEntry) {i : Nat} (h : i < s.length)
    (f : CardLadderEntry → CardLadderEntry) (d : CardLadderEntry) :
    (cardUpd s i f).getD i d = f (s.getD i (cardGetDefaultEntry "")) :=
  getD_set_self s h _ d

theorem cardUpd_getD_ne (s : List CardLadderEntry) {i j : Nat} (h : i ≠ j)
    (f : CardLadderEntry → CardLadderEntry) (d : CardLadderEntry) :
    (cardUpd s i f).getD j d = s.getD j d :=
  getD_set_ne s h _ d

theorem cardUpdTotal_eq (s : List CardLadderEntry) (i pc : Nat)
    (s2 : List CardLadderEntry) (h : cardUpdTotal s i pc = some s2) :
    ∃ e, (s.getD i (cardGetDefaultEntry "")).incrementTotalGameCount pc = some e ∧
      s2 = s.set i e := by
  unfold cardUpdTotal at h
  cases hx : (s.getD i (cardGetDefaultEntry "")).incrementTotalGameCount pc with
  | none => rw [hx] at h; exact absurd h (by simp)
  | some e =>
    rw [hx] at h
    exact ⟨e, rfl, by simpa using h.symm⟩

/-- Claim C7 (confirmed): in a processed team report, a single person occupying both
role-slots of one side (two slots resolving to one entry) receives the rating adjustment
once per role but the all-time games-played counter (`row[10]`) only once, while two
distinct persons on one side each receive the adjustment once and each get the counter
bumped once. -/
theorem C7_card_double_role (L : CardLadder) (r : CardReport) (ws : CardSide)
    (hws : r.winningSide = some ws)
    (w1 w2 l1 l2 : Nat)
    (hw1 : L.getEntry (r.getPlayer (sideRole1 ws)) = some w1)
    (hw2 : L.getEntry (r.getPlayer (sideRole2 ws)) = some w2)
    (hl1 : L.getEntry (r.getPlayer (sideRole1 (cardOpposite ws))) = some l1)
    (hl2 : L.getEntry (r.getPlayer (sideRole2 (cardOpposite ws))) = some l2)
    (hw1len : w1 < L.store.length) (hw2len : w2 < L.store.length)
    (hl1len : l1 < L.store.length) (hl2len : l2 < L.store.length)
    (hd1 : w1 ≠ l1) (hd2 : w1 ≠ l2) (hd3 : w2 ≠ l1) (hd4 : w2 ≠ l2)
    (scoreChange : ℚ)
    (hδ : computeEloDiff
      (((L.entryAt w1).getRoleRating (sideRole1 ws) +
        (L.entryAt w2).getRoleRating (sideRole2 ws)) / 2)
      (((L.entryAt l1).getRoleRating (sideRole1 (cardOpposite ws)) +
        (L.entryAt l2).getRoleRating (sideRole2 (cardOpposite ws))) / 2) = some scoreChange)
    (L2 : CardLadder)
    (hp : L.processReport r = some L2) :
    (w1 = w2 →
      (L2.entryAt w1).getRoleRating (sideRole1 ws) =
        (L.entryAt w1).getRoleRating (sideRole1 ws) + scoreChange ∧
      (L2.entryAt w1).getRoleRating (sideRole2 ws) =
        (L.entryAt w1).getRoleRating (sideRole2 ws) + scoreChange ∧
      (L2.entryAt w1).row.gamesPlayed = (L.entryAt w1).row.gamesPlayed + 1) ∧
    (normalizeName (L.entryAt w1).name ≠ normalizeName (L.entryAt w2).name →
      (L2.entryAt w1).getRoleRating (sideRole1 ws) =
        (L.entryAt w1).getRoleRating (sideRole1 ws) + scoreChange ∧
      (L2.entryAt w2).getRoleRating (sideRole2 ws) =
        (L.entryAt w2).getRoleRating (sideRole2 ws) + scoreChange ∧
      (L2.entryAt w1).row.gamesPlayed = (L.entryAt w1).row.gamesPlayed + 1 ∧
      (L2.entryAt w2).row.gamesPlayed = (L.entryAt w2).row.gamesPlayed + 1) ∧
    (l1 = l2 →
      (L2.entryAt l1).getRoleRating (sideRole1 (cardOpposite ws)) =
        (L.entryAt l1).getRoleRating (sideRole1 (cardOpposite ws)) - scoreChange ∧
      (L2.entryAt l1).getRoleRating (sideRole2 (cardOpposite ws)) =
        (L.entryAt l1).getRoleRating (sideRole2 (cardOpposite ws)) - scoreChange ∧
      (L2.entryAt l1).row.gamesPlayed = (L.entryAt l1).row.gamesPlayed + 1) ∧
    (normalizeName (L.entryAt l1).name ≠ normalizeName (L.entryAt l2).name →
      (L2.entryAt l1).getRoleRating (sideRole1 (cardOpposite ws)) =
        (L.entryAt l1).getRoleRating (sideRole1 (cardOpposite ws)) - scoreChange ∧
      (L2.entryAt l2).getRoleRating (sideRole2 (cardOpposite ws)) =
        (L.entryAt l2).getRoleRating (sideRole2 (cardOpposite ws)) - scoreChange ∧
      (L2.entryAt l1).row.gamesPlayed = (L.entryAt l1).row.gamesPlayed + 1 ∧
      (L2.entryAt l2).row.gamesPlayed = (L.entryAt l2).row.gamesPlayed + 1) := by
  simp only [CardLadder.processReport, Ladder.resolveEntry, hws, hw1, hw2, hl1, hl2] at hp
  rw [hδ] at hp
  split at hp
  · exact Option.noConfusion hp
  next x sc heq =>
  injection heq with hsc
  subst hsc
  split at hp
  · exact Option.noConfusion hp
  next s7 heq7 =>
  obtain ⟨e7, he7, rfl⟩ := cardUpdTotal_eq _ _ _ _ heq7
  split at hp
  · exact Option.noConfusion hp
  next s10 heqW2 =>
  split at heqW2
  next hgW =>
    -- winner guard taken: distinct names at the counter stage, w2 gets its own total bump
    obtain ⟨e10, he10, rfl⟩ := cardUpdTotal_eq _ _ _ _ heqW2
    split at hp
    · exact Option.noConfusion hp
    next s12 heqL1 =>
    obtain ⟨e12, he12, rfl⟩ := cardUpdTotal_eq _ _ _ _ heqL1
    split at hp
    · exact Option.noConfusion hp
    next s14 heqL2 =>
    split at heqL2
    next hgL =>
      obtain ⟨e14, he14, rfl⟩ := cardUpdTotal_eq _ _ _ _ heqL2
      injection hp with hL2
      subst hL2
      refine ⟨fun h12 => ?_, fun hB => ?_, fun h34 => ?_, fun hD => ?_⟩
      · exact absurd rfl (h12 ▸ hgW)
      · have hww : w1 ≠ w2 := fun h => (h ▸ hgW) rfl
        simp [Ladder.entryAt, cardUpd, List.getD_eq_getElem?_getD, List.getElem?_set,
          List.length_set, hw1len, hw2len, hl1len, hl2len, hd1, hd2, hd3, hd4,
          hd1.symm, hd2.symm, hd3.symm, hd4.symm, hww, hww.symm,
          cardRole_setRating_self, cardRole_setRating_ne, cardRole_incWin,
          cardRole_incRoleGame, cardGames_setRating, cardGames_incWin,
          cardGames_incRoleGame, sideRole1_ne_sideRole2,
          (sideRole1_ne_sideRole2 ws).symm, (sideRole1_ne_sideRole2 (cardOpposite ws)).symm,
          cardRole_incTotal _ _ _ he7, cardGames_incTotal _ _ _ he7,
          cardRole_incTotal _ _ _ he10, cardGames_incTotal _ _ _ he10,
          cardRole_incTotal _ _ _ he12, cardGames_incTotal _ _ _ he12,
          cardRole_incTotal _ _ _ he14, cardGames_incTotal _ _ _ he14]
      · exact absurd rfl (h34 ▸ hgL)
      · have hll : l1 ≠ l2 := fun h => (h ▸ hgL) rfl
        simp [Ladder.entryAt, cardUpd, List.getD_eq_getElem?_getD, List.getElem?_set,
          List.length_set, hw1len, hw2len, hl1len, hl2len, hd1, hd2, hd3, hd4,
          hd1.symm, hd2.symm, hd3.symm, hd4.symm, hll, hll.symm,
          cardRole_setRating_self, cardRole_setRating_ne, cardRole_incWin,
          cardRole_incRoleGame, cardGames_setRating, cardGames_incWin,
          cardGames_incRoleGame, sideRole1_ne_sideRole2,
          (sideRole1_ne_sideRole2 ws).symm, (sideRole1_ne_sideRole2 (cardOpposite ws)).symm,
          cardRole_incTotal _ _ _ he7, cardGames_incTotal _ _ _ he7,
          cardRole_incTotal _ _ _ he10, cardGames_incTotal _ _ _ he10,
          cardRole_incTotal _ _ _ he12, cardGames_incTotal _ _ _ he12,
          cardRole_incTotal _ _ _ he14, cardGames_incTotal _ _ _ he14]
    next hgL =>
      -- loser guard skipped: one person holds both losing slots
      injection heqL2 with hs14
      subst hs14
      injection hp with hL2
      subst hL2
      refine ⟨fun h12 => ?_, fun hB => ?_, fun h34 => ?_, fun hD => ?_⟩
      · exact absurd rfl (h12 ▸ hgW)
      · have hww : w1 ≠ w2 := fun h => (h ▸ hgW) rfl
        simp [Ladder.entryAt, cardUpd, List.getD_eq_getElem?_getD, List.getElem?_set,
          List.length_set, hw1len, hw2len, hl1len, hl2len, hd1, hd2, hd3, hd4,
          hd1.symm, hd2.symm, hd3.symm, hd4.symm, hww, hww.symm,
          cardRole_setRating_self, cardRole_setRating_ne, cardRole_incWin,
          cardRole_incRoleGame, cardGames_setRating, cardGames_incWin,
          cardGames_incRoleGame, sideRole1_ne_sideRole2,
          (sideRole1_ne_sideRole2 ws).symm, (sideRole1_ne_sideRole2 (cardOpposite ws)).symm,
          cardRole_incTotal _ _ _ he7, cardGames_incTotal _ _ _ he7,
          cardRole_incTotal _ _ _ he10, cardGames_incTotal _ _ _ he10,
          cardRole_incTotal _ _ _ he12, cardGames_incTotal _ _ _ he12]
      · subst h34
        simp [Ladder.entryAt, cardUpd, List.getD_eq_getElem?_getD, List.getElem?_set,
          List.length_set, hw1len, hw2len, hl1len, hl2len, hd1, hd2, hd3, hd4,
          hd1.symm, hd2.symm, hd3.symm, hd4.symm,
          cardRole_setRating_self, cardRole_setRating_ne, cardRole_incWin,
          cardRole_incRoleGame, cardGames_setRating, cardGames_incWin,
          cardGames_incRoleGame, sideRole1_ne_sideRole2,
          (sideRole1_ne_sideRole2 ws).symm, (sideRole1_ne_sideRole2 (cardOpposite ws)).symm,
          cardRole_incTotal _ _ _ he7, cardGames_incTotal _ _ _ he7,
          cardRole_incTotal _ _ _ he10, cardGames_incTotal _ _ _ he10,
          cardRole_incTotal _ _ _ he12, cardGames_incTotal _ _ _ he12]
      · exfalso
        by_cases hll : l1 = l2
        · exact (hll ▸ hD) rfl
        · rw [not_ne_iff] at hgL
          simp [Ladder.entryAt, cardUpd, List.getD_eq_getElem?_getD, List.getElem?_set,
            List.length_set, hw1len, hw2len, hl1len, hl2len, hd1, hd2, hd3, hd4,
            hd1.symm, hd2.symm, hd3.symm, hd4.symm, hll, Ne.symm hll,
            cardName_setRating, cardName_incWin, cardName_incRoleGame,
            cardName_incTotal _ _ _ he7, cardName_incTotal _ _ _ he10,
            cardName_incTotal _ _ _ he12] at hgL
          simp [Ladder.entryAt, List.getD_eq_getElem?_getD, List.getElem?_eq_getElem,
            hl1len, hl2len] at hD
          exact hD hgL
  next hgW =>
    -- winner guard skipped: one person holds both winning slots
    injection heqW2 with hs10
    subst hs10
    split at hp
    · exact Option.noConfusion hp
    next s12 heqL1 =>
    obtain ⟨e12, he12, rfl⟩ := cardUpdTotal_eq _ _ _ _ heqL1
    split at hp
    · exact Option.noConfusion hp
    next s14 heqL2 =>
    split at heqL2
    next hgL =>
      obtain ⟨e14, he14, rfl⟩ := cardUpdTotal_eq _ _ _ _ heqL2
      injection hp with hL2
      subst hL2
      refine ⟨fun h12 => ?_, fun hB => ?_, fun h34 => ?_, fun hD => ?_⟩
      · subst h12
        simp [Ladder.entryAt, cardUpd, List.getD_eq_getElem?_getD, List.getElem?_set,
          List.length_set, hw1len, hw2len, hl1len, hl2len, hd1, hd2, hd3, hd4,
          hd1.symm, hd2.symm, hd3.symm, hd4.symm,
          cardRole_setRating_self, cardRole_setRating_ne, cardRole_incWin,
          cardRole_incRoleGame, cardGames_setRating, cardGames_incWin,
          cardGames_incRoleGame, sideRole1_ne_sideRole2,
          (sideRole1_ne_sideRole2 ws).symm, (sideRole1_ne_sideRole2 (cardOpposite ws)).symm,
          cardRole_incTotal _ _ _ he7, cardGames_incTotal _ _ _ he7,
          cardRole_incTotal _ _ _ he12, cardGames_incTotal _ _ _ he12,
          cardRole_incTotal _ _ _ he14, cardGames_incTotal _ _ _ he14]
      · exfalso
        by_cases hww : w1 = w2
        · exact (hww ▸ hB) rfl
        · rw [not_ne_iff] at hgW
          simp [Ladder.entryAt, cardUpd, List.getD_eq_getElem?_getD, List.getElem?_set,
            List.length_set, hw1len, hw2len, hl1len, hl2len, hd1, hd2, hd3, hd4,
            hd1.symm, hd2.symm, hd3.symm, hd4.symm, hww, Ne.symm hww,
            cardName_setRating, cardName_incWin, cardName_incRoleGame,
            cardName_incTotal _ _ _ he7] at hgW
          simp [Ladder.entryAt, List.getD_eq_getElem?_getD, List.getElem?_eq_getElem,
            hw1len, hw2len] at hB
          exact hB hgW
      · exact absurd rfl (h34 ▸ hgL)
      · have hll : l1 ≠ l2 := fun h => (h ▸ hgL) rfl
        simp [Ladder.entryAt, cardUpd, List.getD_eq_getElem?_getD, List.getElem?_set,
          List.length_set, hw1len, hw2len, hl1len, hl2len, hd1, hd2, hd3, hd4,
          hd1.symm, hd2.symm, hd3.symm, hd4.symm, hll, hll.symm,
          cardRole_setRating_self, cardRole_setRating_ne, cardRole_incWin,
          cardRole_incRoleGame, cardGames_setRating, cardGames_incWin,
          cardGames_incRoleGame, sideRole1_ne_sideRole2,
          (sideRole1_ne_sideRole2 ws).symm, (sideRole1_ne_sideRole2 (cardOpposite ws)).symm,
          cardRole_incTotal _ _ _ he7, cardGames_incTotal _ _ _ he7,
          cardRole_incTotal _ _ _ he12, cardGames_incTotal _ _ _ he12,
          cardRole_incTotal _ _ _ he14, cardGames_incTotal _ _ _ he14]
    next hgL =>
      injection heqL2 with hs14
      subst hs14
      injection hp with hL2
      subst hL2
      refine ⟨fun h12 => ?_, fun hB => ?_, fun h34 => ?_, fun hD => ?_⟩
      · subst h12
        simp [Ladder.entryAt, cardUpd, List.getD_eq_getElem?_getD, List.getElem?_set,
          List.length_set, hw1len, hw2len, hl1len, hl2len, hd1, hd2, hd3, hd4,
          hd1.symm, hd2.symm, hd3.symm, hd4.symm,
          cardRole_setRating_self, cardRole_setRating_ne, cardRole_incWin,
          cardRole_incRoleGame, cardGames_setRating, cardGames_incWin,
          cardGames_incRoleGame, sideRole1_ne_sideRole2,
          (sideRole1_ne_sideRole2 ws).symm, (sideRole1_ne_sideRole2 (cardOpposite ws)).symm,
          cardRole_incTotal _ _ _ he7, cardGames_incTotal _ _ _ he7,
          cardRole_incTotal _ _ _ he12, cardGames_incTotal _ _ _ he12]
      · exfalso
        by_cases hww : w1 = w2
        · exact (hww ▸ hB) rfl
        · rw [not_ne_iff] at hgW
          simp [Ladder.entryAt, cardUpd, List.getD_eq_getElem?_getD, List.getElem?_set,
            List.length_set, hw1len, hw2len, hl1len, hl2len, hd1, hd2, hd3, hd4,
            hd1.symm, hd2.symm, hd3.symm, hd4.symm, hww, Ne.symm hww,
            cardName_setRating, cardName_incWin, cardName_incRoleGame,
            cardName_incTotal _ _ _ he7] at hgW
          simp [Ladder.entryAt, List.getD_eq_getElem?_getD, List.getElem?_eq_getElem,
            hw1len, hw2len] at hB
          exact hB hgW
      · subst h34
        simp [Ladder.entryAt, cardUpd, List.getD_eq_getElem?_getD, List.getElem?_set,
          List.length_set, hw1len, hw2len, hl1len, hl2len, hd1, hd2, hd3, hd4,
          hd1.symm, hd2.symm, hd3.symm, hd4.symm,
          cardRole_setRating_self, cardRole_setRating_ne, cardRole_incWin,
          cardRole_incRoleGame, cardGames_setRating, cardGames_incWin,
          cardGames_incRoleGame, sideRole1_ne_sideRole2,
          (sideRole1_ne_sideRole2 ws).symm, (sideRole1_ne_sideRole2 (cardOpposite ws)).symm,
          cardRole_incTotal _ _ _ he7, cardGames_incTotal _ _ _ he7,
          cardRole_incTotal _ _ _ he12, cardGames_incTotal _ _ _ he12]
      · exfalso
        by_cases hll : l1 = l2
        · exact (hll ▸ hD) rfl
        · rw [not_ne_iff] at hgL
          simp [Ladder.entryAt, cardUpd, List.getD_eq_getElem?_getD, List.getElem?_set,
            List.length_set, hw1len, hw2len, hl1len, hl2len, hd1, hd2, hd3, hd4,
            hd1.symm, hd2.symm, hd3.symm, hd4.symm, hll, Ne.symm hll,
            cardName_setRating, cardName_incWin, cardName_incRoleGame,
            cardName_incTotal _ _ _ he7, cardName_incTotal _ _ _ he12] at hgL
          simp [Ladder.entryAt, List.getD_eq_getElem?_getD, List.getElem?_eq_getElem,
            hl1len, hl2len] at hD
          exact hD hgL

/-- A card ladder with three players at the default ratings. -/
def c7Ladder : CardLadder :=
  Ladder.ofEntries
    [cardGetDefaultEntry "Xavier", cardGetDefaultEntry "Yara", cardGetDefaultEntry "Zed"]

/-- A team report in which Xavier alone plays both Shadow roles and beats Yara (Frodo)
and Zed (Aragorn). -/
def c7Report : CardReport :=
  { row := [.date, .str "Xavier", .str "Xavier", .str "Yara", .str "Zed"],
    competitive := .ladder, victory := .sp }

/-- The concrete result of processing `c7Report` on `c7Ladder`. -/
def c7Out : CardLadder :=
  (c7Ladder.processReport c7Report).getD (Ladder.ofEntries [])

/-- Witness for C7 at the concrete ladder: Xavier, holding both winning slots, gains the
16-point adjustment on both role ratings but only one bump of the all-time games
counter. -/
theorem C7_witness :
    c7Ladder.processReport c7Report = some c7Out ∧
      (c7Out.entryAt 0).getRoleRating (sideRole1 .shadow) =
        (c7Ladder.entryAt 0).getRoleRating (sideRole1 .shadow) + 16 ∧
      (c7Out.entryAt 0).getRoleRating (sideRole2 .shadow) =
        (c7Ladder.entryAt 0).getRoleRating (sideRole2 .shadow) + 16 ∧
      (c7Out.entryAt 0).row.gamesPlayed = (c7Ladder.entryAt 0).row.gamesPlayed + 1 := by
  have hp : c7Ladder.processReport c7Report = some c7Out := by with_unfolding_all rfl
  have h := C7_card_double_role c7Ladder c7Report .shadow (by rfl) 0 0 1 2
    (by decide) (by decide) (by decide) (by decide)
    (by decide) (by decide) (by decide) (by decide)
    (by decide) (by decide) (by decide) (by decide)
    16 (by with_unfolding_all rfl) c7Out hp
  obtain ⟨h1, h2, h3⟩ := h.1 rfl
  exact ⟨hp, h1, h2, h3⟩

/-- The `VICTORY`-string to `WotrVictory` cast performed by the `WotrReport` constructor
(`this.victory = row[5]`); the parser guarantees membership, so the final fallback is
unreachable on parsed rows. -/
def victoryOfString (s : String) : WotrVictory :=
  if s = "Free People Ring" then .freePeopleRing
  else if s = "Free People Military" then .freePeopleMilitary
  else if s = "Conceded FP won" then .concededFPWon
  else if s = "Shadow Forces Corruption" then .shadowForcesCorruption
  else if s = "Shadow Forces Military" then .shadowForcesMilitary
  else .concededSPWon

/-- The `COMPETITIVE`-string to `WotrCompetitive` cast performed by the `WotrReport`
constructor (`this.competitive = row[6]`); the parser guarantees membership. -/
def competitiveOfString (s : String) : WotrCompetitive :=
  if s = "Friendly" then .friendly
  else if s = "Ladder" then .ladder
  else if s = "Ladder and tournament" then .ladderAndTournament
  else if s = "Ladder and league (general)" then .ladderAndLeagueGeneral
  else if s = "Ladder and league (lome)" then .ladderAndLeagueLome
  else if s = "Ladder and league (TTS)" then .ladderAndLeagueTTS
  else if s = "Ladder and league (wome)" then .ladderAndLeagueWome
  else if s = "Ladder and league (super)" then .ladderAndLeagueSuper
  else .ladderButNoStats

/-- The `WotrReport` constructor from `src/objects.ts`: keep the row, extract winner (2),
loser (3), victory (5) and competitive (6); `annotation` starts at the all-zero default. -/
def WotrReport.ofRow (row : List CellValue) : WotrReport :=
  { row := row
    winner := cellStr (row.getD 2 .other)
    loser := cellStr (row.getD 3 .other)
    victory := victoryOfString (cellStr (row.getD 5 .other))
    competitive := competitiveOfString (cellStr (row.getD 6 .other)) }

/-- `responseRange.getValues().map(this._parser)`: apply the row parser to each raw row in
order; the first validation throw aborts the whole read. -/
def mapParser {T : Type} (parser : CellValue → Except ParseError T) :
    List (List CellValue) → Except ParseError (List T)
  | [] => .ok []
  | row :: rest =>
    match parser (.arr row) with
    | .error e => .error e
    | .ok t =>
      match mapParser parser rest with
      | .error e => .error e
      | .ok ts => .ok (t :: ts)

/-- `FormResponseSheet.readResponses` from `src/sheets.ts`: an explicit batch size of 0
reads nothing; zero pending data rows short-circuit (without adjusting the stored batch
size — note the bug surfaced by claim C3); otherwise the stored batch size is clamped down
to the number of pending rows and that many rows are read and parsed.  Returns the parsed
batch together with the object's `_batchSize` field after the call. -/
def FormResponseSheet.readResponses {T : Type} (parser : CellValue → Except ParseError T)
    (batchSize : Nat) (rows : List (List CellValue)) :
    Except ParseError (List T × Nat) :=
  if batchSize = 0 then .ok ([], batchSize)
  else
    let numReports := rows.length
    if numReports = 0 then .ok ([], batchSize)
    else
      let batchSize2 := if numReports < batchSize then numReports else batchSize
      (mapParser parser (rows.take batchSize2)).map (fun ts => (ts, batchSize2))

/-- `FormResponseSheet.deleteResponses` from `src/sheets.ts`: no deletion when the stored
batch size is 0, otherwise a request to delete that many rows below the header. -/
def FormResponseSheet.deleteResponses (batchSize : Nat) : Option Nat :=
  if batchSize = 0 then none else some batchSize

/-- The in-order processing loop
`reports.filter((r) => r.isLadderGame()).forEach((r) => ladder.processReport(r))` of
`updateWotrLadder`: ladder-eligible reports are processed against the evolving ladder and
receive their annotation in place; other reports pass through untouched. -/
def processReports (L : WotrLadder) : List WotrReport → Option (WotrLadder × List WotrReport)
  | [] => some (L, [])
  | r :: rest =>
    if r.isLadderGame then
      match L.processReport r with
      | none => none
      | some (L2, ann) =>
        match processReports L2 rest with
        | none => none
        | some (L3, rest2) => some (L3, { r with annot := ann } :: rest2)
    else
      match processReports L rest with
      | none => none
      | some (L3, rest2) => some (L3, r :: rest2)

/-- The externally visible effects of one `updateWotrLadder` batch on the backing
spreadsheet, together with the final in-memory state. -/
structure WotrBatchResult where
  ladder : WotrLadder
  reports : List WotrReport
  reportSheetRows : List WotrReport
  reportSheetSorted : Bool
  noStatsSheetRows : List WotrReport
  noStatsSheetSorted : Bool
  ladderRowsInserted : Nat
  ladderNamesWritten : List String
  ladderRatingsWritten : List (ℚ × ℚ × ℚ)
  ladderSorted : Bool
  responsesDeleted : Option Nat

/-- `updateWotrLadder` from `src/update.ts`, over the pending form rows and the parsed
ladder rows: read a batch of responses, build reports and the ladder, process the
ladder-eligible reports in order, append the has-stats and no-stats report groups to their
sheets (each a no-op when its group is empty, otherwise rows are written and the sheet
re-sorted), insert rows for any new players, always write every player's name and
ratings back in `originalEntries` order and re-sort the ladder sheet
(`writeLadderEntries` is unconditional), and finally delete the consumed responses using
the sheet object's post-read batch size.  A validation or processing throw aborts the
batch (`none`). -/
def updateWotrLadder (batchSize : Nat) (pendingRows : List (List CellValue))
    (ladderRows : List WotrLadderRow) : Option WotrBatchResult :=
  match FormResponseSheet.readResponses parseWotrReportRow batchSize pendingRows with
  | .error _ => none
  | .ok (parsedRows, batchSize2) =>
    let reports := parsedRows.map WotrReport.ofRow
    let ladderEntries := ladderRows.map WotrLadderEntry.ofRow
    let originalPlayerCount := ladderEntries.length
    let ladder := Ladder.ofEntries ladderEntries
    match processReports ladder reports with
    | none => none
    | some (ladder2, reports2) =>
      let withStats := reports2.filter (fun r => r.hasStats)
      let withoutStats := reports2.filter (fun r => !r.hasStats)
      let newPlayerCount := ladder2.originalEntries.length - originalPlayerCount
      some
        { ladder := ladder2
          reports := reports2
          reportSheetRows := if withStats.isEmpty then [] else withStats
          reportSheetSorted := !withStats.isEmpty
          noStatsSheetRows := if withoutStats.isEmpty then [] else withoutStats
          noStatsSheetSorted := !withoutStats.isEmpty
          ladderRowsInserted := newPlayerCount
          ladderNamesWritten := ladder2.originalEntries.map (fun i => (ladder2.entryAt i).name)
          ladderRatingsWritten := ladder2.originalEntries.map
            (fun i => ((ladder2.entryAt i).shadowRating, (ladder2.entryAt i).freeRating,
              (ladder2.entryAt i).gamesPlayed))
          ladderSorted := true
          responsesDeleted := FormResponseSheet.deleteResponses batchSize2 }

theorem mapParser_ok_length {T : Type} (parser : CellValue → Except ParseError T) :
    ∀ (l : List (List CellValue)) (out : List T),
      mapParser parser l = .ok out → out.length = l.length := by
  intro l
  induction l with
  | nil =>
    intro out h
    rw [mapParser] at h
    injection h with h2
    subst h2
    rfl
  | cons row rest ih =>
    intro out h
    rw [mapParser] at h
    cases hp : parser (.arr row) with
    | error e => rw [hp] at h; exact Except.noConfusion h
    | ok t =>
      rw [hp] at h
      cases hm : mapParser parser rest with
      | error e => rw [hm] at h; exact Except.noConfusion h
      | ok ts =>
        rw [hm] at h
        injection h with h2
        subst h2
        simpa using ih ts hm

theorem map_getD_range {α : Type} (d : α) :
    ∀ l : List α, (List.range l.length).map (fun i => l.getD i d) = l := by
  intro l
  induction l with
  | nil => rfl
  | cons a l ih =>
    rw [List.length_cons, List.range_succ_eq_map, List.map_cons, List.map_map]
    have hcomp : ((fun i => (a :: l).getD i d) ∘ Nat.succ) = (fun i => l.getD i d) :=
      funext fun i => rfl
    rw [List.getD_cons_zero, hcomp, ih]

/-- Claim C3 (corrected): `readResponses` reads exactly `min (requested batch size,
pending rows)` report rows; however a batch over zero pending rows is not a no-op: the
report sheets are untouched and no player rows are inserted, but the ladder sheet is still
rewritten (all names and ratings) and re-sorted, and the response sheet still receives a
delete request for the originally requested batch size. -/
theorem C3_readResponses_clamp_and_empty_batch :
    (∀ (T : Type) (parser : CellValue → Except ParseError T) (batchSize : Nat)
      (rows : List (List CellValue)) (out : List T) (batchSize2 : Nat),
      FormResponseSheet.readResponses parser batchSize rows = .ok (out, batchSize2) →
      out.length = min batchSize rows.length) ∧
    (∀ (batchSize : Nat) (ladderRows : List WotrLadderRow) (res : WotrBatchResult),
      updateWotrLadder batchSize [] ladderRows = some res →
      res.reports = [] ∧ res.reportSheetRows = [] ∧ res.reportSheetSorted = false ∧
      res.noStatsSheetRows = [] ∧ res.noStatsSheetSorted = false ∧
      res.ladderRowsInserted = 0 ∧
      res.ladderNamesWritten = ladderRows.map (fun row => (WotrLadderEntry.ofRow row).name) ∧
      res.ladderSorted = true ∧
      res.responsesDeleted = FormResponseSheet.deleteResponses batchSize) := by
  constructor
  · intro T parser batchSize rows out batchSize2 h
    unfold FormResponseSheet.readResponses at h
    by_cases hbs : batchSize = 0
    · rw [if_pos hbs] at h
      injection h with h2
      obtain rfl : out = [] := (congrArg Prod.fst h2).symm
      simp [hbs]
    · rw [if_neg hbs] at h
      by_cases hn : rows.length = 0
      · rw [if_pos hn] at h
        injection h with h2
        obtain rfl : out = [] := (congrArg Prod.fst h2).symm
        simp [hn]
      · rw [if_neg hn] at h
        dsimp only [] at h
        cases hm : mapParser parser
            (rows.take (if rows.length < batchSize then rows.length else batchSize)) with
        | error e => rw [hm] at h; exact Except.noConfusion h
        | ok ts =>
          rw [hm] at h
          injection h with h2
          obtain rfl : ts = out := congrArg Prod.fst h2
          have hlen := mapParser_ok_length parser _ ts hm
          rw [List.length_take] at hlen
          rcases Nat.lt_or_ge rows.length batchSize with h1 | h1
          · rw [if_pos h1, Nat.min_self] at hlen
            rw [Nat.min_eq_right (Nat.le_of_lt h1)]
            exact hlen
          · rw [if_neg (Nat.not_lt.mpr h1)] at hlen
            exact hlen
  · intro batchSize ladderRows res h
    have hread : FormResponseSheet.readResponses parseWotrReportRow batchSize
        ([] : List (List CellValue)) = .ok ([], batchSize) := by
      unfold FormResponseSheet.readResponses
      split
      · rfl
      · rfl
    rw [updateWotrLadder, hread] at h
    simp only [List.map_nil] at h
    rw [show processReports (Ladder.ofEntries (ladderRows.map WotrLadderEntry.ofRow)) [] =
      some (Ladder.ofEntries (ladderRows.map WotrLadderEntry.ofRow), []) from rfl] at h
    injection h with h2
    subst h2
    refine ⟨rfl, rfl, rfl, rfl, rfl, ?_, ?_, rfl, rfl⟩
    · simp [Ladder.ofEntries]
    · show (Ladder.ofEntries (ladderRows.map WotrLadderEntry.ofRow)).originalEntries.map _ = _
      rw [show (Ladder.ofEntries (ladderRows.map WotrLadderEntry.ofRow)).originalEntries =
        List.range (ladderRows.map WotrLadderEntry.ofRow).length from rfl]
      have := map_getD_range (LadderEntryOps.defaultEntry "")
        (ladderRows.map WotrLadderEntry.ofRow)
      calc (List.range (ladderRows.map WotrLadderEntry.ofRow).length).map
            (fun i => (Ladder.entryAt (Ladder.ofEntries (ladderRows.map WotrLadderEntry.ofRow)) i).name)
          = ((List.range (ladderRows.map WotrLadderEntry.ofRow).length).map
              (fun i => (ladderRows.map WotrLadderEntry.ofRow).getD i
                (LadderEntryOps.defaultEntry ""))).map (fun e => e.name) := by
            rw [List.map_map]; rfl
        _ = (ladderRows.map WotrLadderEntry.ofRow).map (fun e => e.name) := by rw [this]
        _ = ladderRows.map (fun row => (WotrLadderEntry.ofRow row).name) := by
            rw [List.map_map]; rfl

/-- A concrete parsed ladder row (Alice). -/
def c3LadderRow : WotrLadderRow :=
  { rank := 1, name := "Alice", rating := 500, shadowRating := 520, freeRating := 480,
    gamesPlayed := 10 }

/-- A junk batch result, serving only as a `getD` fallback. -/
def emptyWotrBatchResult : WotrBatchResult :=
  { ladder := Ladder.ofEntries [], reports := [], reportSheetRows := [],
    reportSheetSorted := false, noStatsSheetRows := [], noStatsSheetSorted := false,
    ladderRowsInserted := 0, ladderNamesWritten := [], ladderRatingsWritten := [],
    ladderSorted := false, responsesDeleted := none }

/-- The concrete result of a batch of requested size 5 with zero pending rows. -/
def c3Res : WotrBatchResult :=
  (updateWotrLadder 5 [] [c3LadderRow]).getD emptyWotrBatchResult

/-- The concrete result of reading a batch of requested size 10 over 3 pending rows. -/
def c3Read : List (List CellValue) × Nat :=
  match FormResponseSheet.readResponses parseWotrReportRow 10
      [sampleWotrRow, sampleWotrRow, sampleWotrRow] with
  | .ok p => p
  | .error _ => ([], 0)

/-- Witness for C3: a requested batch of 10 over 3 pending rows reads exactly
`min 10 3 = 3` rows, and the zero-pending batch leaves the report sheets untouched while
still re-sorting the ladder sheet. -/
theorem C3_witness :
    FormResponseSheet.readResponses parseWotrReportRow 10
        [sampleWotrRow, sampleWotrRow, sampleWotrRow] = .ok (c3Read.1, c3Read.2) ∧
      c3Read.1.length = min 10 3 ∧
      updateWotrLadder 5 [] [c3LadderRow] = some c3Res ∧
      c3Res.reports = [] ∧ c3Res.reportSheetRows = [] ∧ c3Res.ladderSorted = true := by
  have hok : FormResponseSheet.readResponses parseWotrReportRow 10
      [sampleWotrRow, sampleWotrRow, sampleWotrRow] = .ok (c3Read.1, c3Read.2) := by
    with_unfolding_all rfl
  have hres : updateWotrLadder 5 [] [c3LadderRow] = some c3Res := by
    with_unfolding_all rfl
  have hparts := C3_readResponses_clamp_and_empty_batch
  have hcount := hparts.1 (List CellValue) parseWotrReportRow 10
    [sampleWotrRow, sampleWotrRow, sampleWotrRow] c3Read.1 c3Read.2 hok
  have hempty := hparts.2 5 [c3LadderRow] c3Res hres
  exact ⟨hok, by simpa using hcount, hres, hempty.1, hempty.2.1, hempty.2.2.2.2.2.2.2.1⟩

/-- Counterexample for C3 as frozen: with zero pending rows the batch nevertheless writes
the ladder name column back, re-sorts the ladder sheet, and requests deletion of 5 rows
from the response sheet — not a no-op on the backing stores. -/
theorem C3_counterexample :
    updateWotrLadder 5 [] [c3LadderRow] = some c3Res ∧
      c3Res.ladderNamesWritten = ["Alice"] ∧
      c3Res.ladderSorted = true ∧
      c3Res.responsesDeleted = some 5 := by
  refine ⟨by with_unfolding_all rfl, by with_unfolding_all rfl, by with_unfolding_all rfl,
    by with_unfolding_all rfl⟩

theorem fst_map_consWrap (o : Option (WotrLadder × List WotrReport)) (x : WotrReport) :
    (match o with
      | none => none
      | some (L3, rest2) => some (L3, x :: rest2)).map Prod.fst = o.map Prod.fst := by
  rcases o with - | ⟨L3, rest2⟩ <;> rfl

theorem processReports_fst_skips_nonladder (r : WotrReport) (hr : r.isLadderGame = false) :
    ∀ (pre : List WotrReport) (post : List WotrReport) (L : WotrLadder),
      (processReports L (pre ++ r :: post)).map Prod.fst =
        (processReports L (pre ++ post)).map Prod.fst := by
  intro pre
  induction pre with
  | nil =>
    intro post L
    rw [List.nil_append, List.nil_append, processReports, if_neg (by simp [hr])]
    exact fst_map_consWrap (processReports L post) r
  | cons p pre ih =>
    intro post L
    rw [List.cons_append, List.cons_append, processReports, processReports]
    by_cases hp : p.isLadderGame
    · rw [if_pos hp, if_pos hp]
      cases hpr : L.processReport p with
      | none => rfl
      | some res =>
        rcases res with ⟨L2, ann⟩
        rw [fst_map_consWrap (processReports L2 (pre ++ r :: post)),
          fst_map_consWrap (processReports L2 (pre ++ post))]
        exact ih post L2
    · rw [if_neg hp, if_neg hp]
      rw [fst_map_consWrap (processReports L (pre ++ r :: post)),
        fst_map_consWrap (processReports L (pre ++ post))]
      exact ih post L

theorem processReports_nonladder_mem :
    ∀ (reports : List WotrReport) (L L2 : WotrLadder) (reports2 : List WotrReport),
      processReports L reports = some (L2, reports2) →
      ∀ r ∈ reports2, r.isLadderGame = false → r ∈ reports := by
  intro reports
  induction reports with
  | nil =>
    intro L L2 reports2 h r hmem hr
    rw [processReports] at h
    injection h with h2
    obtain rfl : reports2 = [] := (congrArg Prod.snd h2).symm
    exact absurd hmem (List.not_mem_nil r)
  | cons a rest ih =>
    intro L L2 reports2 h r hmem hr
    rw [processReports] at h
    by_cases ha : a.isLadderGame
    · rw [if_pos ha] at h
      cases hpr : L.processReport a with
      | none => rw [hpr] at h; exact Option.noConfusion h
      | some res =>
        rcases res with ⟨La, ann⟩
        rw [hpr] at h
        dsimp only [] at h
        cases hrec : processReports La rest with
        | none => rw [hrec] at h; exact Option.noConfusion h
        | some res2 =>
          rcases res2 with ⟨L3, rest2⟩
          rw [hrec] at h
          dsimp only [] at h
          injection h with h2
          obtain rfl : reports2 = { a with annot := ann } :: rest2 :=
            (congrArg Prod.snd h2).symm
          rcases List.mem_cons.mp hmem with rfl | hmem2
          · exact absurd ha (by simp [show a.isLadderGame = false from hr])
          · exact List.mem_cons_of_mem a (ih La L3 rest2 hrec r hmem2 hr)
    · rw [if_neg ha] at h
      cases hrec : processReports L rest with
      | none => rw [hrec] at h; exact Option.noConfusion h
      | some res2 =>
        rcases res2 with ⟨L3, rest2⟩
        rw [hrec] at h
        dsimp only [] at h
        injection h with h2
        obtain rfl : reports2 = a :: rest2 := (congrArg Prod.snd h2).symm
        rcases List.mem_cons.mp hmem with rfl | hmem2
        · exact List.mem_cons_self r rest
        · exact List.mem_cons_of_mem a (ih L L3 rest2 hrec r hmem2 hr)

theorem nonladder_hasStats (r : WotrReport) (h : r.isLadderGame = false) :
    r.hasStats = true := by
  have h2 : jsStartsWith (competitiveStr r.competitive) "Ladder" = false := h
  revert h2
  cases hr : r.competitive <;> · rw [WotrReport.hasStats, hr]; decide

/-- Claim C8 (confirmed): a report whose competitive classification does not start with
`'Ladder'` never affects the ladder (removing it from the batch leaves the resulting
ladder unchanged), keeps its all-zero default annotation, and is still appended to the
report history sheet (every non-ladder classification has stats). -/
theorem C8_nonladder_reports :
    (∀ (L : WotrLadder) (pre post : List WotrReport) (r : WotrReport),
      r.isLadderGame = false →
      (processReports L (pre ++ r :: post)).map Prod.fst =
        (processReports L (pre ++ post)).map Prod.fst) ∧
    (∀ (batchSize : Nat) (pendingRows : List (List CellValue))
      (ladderRows : List WotrLadderRow) (res : WotrBatchResult),
      updateWotrLadder batchSize pendingRows ladderRows = some res →
      ∀ r ∈ res.reports, r.isLadderGame = false →
        r.annot = [0, 0, 0, 0, 0, 0, 0, 0] ∧ r ∈ res.reportSheetRows) := by
  constructor
  · intro L pre post r hr
    exact processReports_fst_skips_nonladder r hr pre post L
  · intro batchSize pendingRows ladderRows res h r hmem hr
    rw [updateWotrLadder] at h
    cases hread : FormResponseSheet.readResponses parseWotrReportRow batchSize
        pendingRows with
    | error e => rw [hread] at h; exact Option.noConfusion h
    | ok p =>
      rcases p with ⟨parsedRows, batchSize2⟩
      rw [hread] at h
      dsimp only [] at h
      cases hproc : processReports
          (Ladder.ofEntries (ladderRows.map WotrLadderEntry.ofRow))
          (parsedRows.map WotrReport.ofRow) with
      | none => rw [hproc] at h; exact Option.noConfusion h
      | some res2 =>
        rcases res2 with ⟨ladder2, reports2⟩
        rw [hproc] at h
        dsimp only [] at h
        injection h with h2
        subst h2
        have hmem2 : r ∈ reports2 := hmem
        have hstats : r.hasStats = true := nonladder_hasStats r hr
        constructor
        · have hin := processReports_nonladder_mem _ _ _ _ hproc r hmem2 hr
          obtain ⟨row, -, rfl⟩ := List.mem_map.mp hin
          rfl
        · have hfil : r ∈ reports2.filter (fun q => q.hasStats) :=
            List.mem_filter.mpr ⟨hmem2, hstats⟩
          have hne : (reports2.filter (fun q => q.hasStats)).isEmpty = false := by
            cases hc : reports2.filter (fun q => q.hasStats) with
            | nil => rw [hc] at hfil; exact absurd hfil (List.not_mem_nil r)
            | cons x xs => rfl
          show r ∈ (if (reports2.filter (fun q => q.hasStats)).isEmpty then []
            else reports2.filter (fun q => q.hasStats))
          rw [hne]
          simpa using hfil

def c8Row : List CellValue := sampleWotrRow.set 6 (.str "Friendly")

def c8Res : WotrBatchResult :=
  (updateWotrLadder 5 [c8Row] [c3LadderRow]).getD emptyWotrBatchResult

def c8Report : WotrReport := WotrReport.ofRow (applyNameTrims c8Row)

/-- Witness for C8: a batch holding a single 'Friendly' report leaves the ladder fold
unchanged when the report is removed, and in the full batch the report keeps its all-zero
default annotation and lands on the report history sheet. -/
theorem C8_witness :
    ((processReports (Ladder.ofEntries ([c3LadderRow].map WotrLadderEntry.ofRow))
        ([] ++ c8Report :: [])).map Prod.fst =
      (processReports (Ladder.ofEntries ([c3LadderRow].map WotrLadderEntry.ofRow))
        ([] ++ [])).map Prod.fst) ∧
    updateWotrLadder 5 [c8Row] [c3LadderRow] = some c8Res ∧
    c8Report ∈ c8Res.reports ∧
    c8Report.annot = [0, 0, 0, 0, 0, 0, 0, 0] ∧
    c8Report ∈ c8Res.reportSheetRows := by
  have hlg : c8Report.isLadderGame = false := by with_unfolding_all rfl
  have hres : updateWotrLadder 5 [c8Row] [c3LadderRow] = some c8Res := by
    with_unfolding_all rfl
  have hrep : c8Res.reports = [c8Report] := by with_unfolding_all rfl
  have hmem : c8Report ∈ c8Res.reports := by
    rw [hrep]; exact List.mem_cons_self c8Report []
  have h1 := C8_nonladder_reports.1
    (Ladder.ofEntries ([c3LadderRow].map WotrLadderEntry.ofRow)) [] [] c8Report hlg
  have h2 := C8_nonladder_reports.2 5 [c8Row] [c3LadderRow] c8Res hres c8Report hmem hlg
  exact ⟨h1, hres, hmem, h2.1, h2.2⟩

end WotrLadderUpdate
